import Mathlib

/-!
Verification development for the oncotree snapshot reconciliation script
(`scripts/validate_new_tree_and_output_rdf.py`).

The script is embedded shallowly: CSV rows become the `Row` structure,
Python dicts become association lists with insertion-order semantics
(`dictSet` / `dictGet?`), `sys.exit` error paths become `Except` values,
and printed report lines become lists of strings.  Python set iteration,
whose order is unspecified, is modelled by passing an explicit enumeration
list to the functions that iterate over a set.
-/

deriving instance DecidableEq for Except

namespace Oncotree

/-! ### Lexicographic string order (models Python `sorted` on strings) -/
def strLe (a b : String) : Bool :=
  lexLeChars a.data b.data
where
  lexLeChars : List Char → List Char → Bool
    | [], _ => true
    | _ :: _, [] => false
    | c :: cs, d :: ds => if c.toNat < d.toNat then true
        else if d.toNat < c.toNat then false else lexLeChars cs ds

def insertSorted (x : String) : List String → List String
  | [] => [x]
  | y :: ys => if strLe x y then x :: y :: ys else y :: insertSorted x ys

/-- Models Python `sorted(...)` over an enumerated collection of strings. -/
def sortedIds (l : List String) : List String := l.foldr insertSorted []

/-! ### Python string helpers -/
/-- Models Python `str.split()` with no argument: split on runs of whitespace,
dropping empty pieces. -/
def splitWs : List Char → List Char → List String
  | [], acc => if acc.isEmpty then [] else [String.mk acc.reverse]
  | c :: cs, acc =>
    if c.isWhitespace then
      (if acc.isEmpty then splitWs cs [] else String.mk acc.reverse :: splitWs cs [])
    else splitWs cs (c :: acc)

def pySplit (s : String) : List String := splitWs s.data []

/-- Models Python `s.strip() == ""`: the string is empty or all whitespace. -/
def stripIsEmpty (s : String) : Bool := s.data.all Char.isWhitespace

/-! ### Python dict model (association lists with insertion-order update) -/
def dictGet? {α : Type} (d : List (String × α)) (k : String) : Option α :=
  (d.find? (fun p => p.1 == k)).map (fun p => p.2)

def dictContains {α : Type} (d : List (String × α)) (k : String) : Bool :=
  d.any (fun p => p.1 == k)

/-- Models `d[k] = v` on a Python dict: overwrite in place if the key exists,
append at the end otherwise. -/
def dictSet {α : Type} (d : List (String × α)) (k : String) (v : α) :
    List (String × α) :=
  if dictContains d k then d.map (fun p => if p.1 == k then (p.1, v) else p)
  else d ++ [(k, v)]

def dictKeys {α : Type} (d : List (String × α)) : List String := d.map (fun p => p.1)

/-- Models `defaultdict(set)` insertion `d[k].add(v)` (sets deduplicate). -/
def multiDictAdd (d : List (String × List String)) (k v : String) :
    List (String × List String) :=
  if dictContains d k then
    d.map (fun p => if p.1 == k then (p.1, if p.2.contains v then p.2 else p.2 ++ [v]) else p)
  else d ++ [(k, [v])]

/-- Value set of a `defaultdict(set)` key (empty when absent).  The set is
represented as its insertion-ordered membership list; Python's per-run set
iteration order is unspecified, so statements that are sensitive to the
order in which a value set is visited take that order as an explicit
parameter (`precursorKeyStepO`, `revocationKeyStepO`, `confirm_changes_vo`)
instead of relying on this representation order. -/
def multiDictGet (d : List (String × List String)) (k : String) : List String :=
  match dictGet? d k with
  | some vs => vs
  | none => []

/-! ### Error-propagating loop combinators

Python loops containing `sys.exit` calls become folds and maps in the
`Except` monad: the first error aborts the loop. -/
def foldE {ε σ α : Type} (f : σ → α → Except ε σ) : σ → List α → Except ε σ
  | s, [] => .ok s
  | s, x :: xs =>
    match f s x with
    | .ok s2 => foldE f s2 xs
    | .error e => .error e

def mapE {ε α β : Type} (f : α → Except ε β) : List α → Except ε (List β)
  | [] => .ok []
  | x :: xs =>
    match f x with
    | .error e => .error e
    | .ok y =>
      match mapE f xs with
      | .error e => .error e
      | .ok ys => .ok (y :: ys)

/-! ### Data model

One CSV row.  `parent_oncotree_code` is `none` for rows of the original
snapshot, whose schema lacks the "parent oncotree code" column, and `some c`
(possibly `some ""`) for rows of the modified snapshot. -/
structure Row where
  resource_uri : String
  label : String
  scheme_uri : String
  status : String
  internal_id : String
  color : String
  main_type : String
  oncotree_code : String
  precursors : String
  preferred_label : String
  revocations : String
  parent_resource_uri : String
  parent_label : String
  parent_oncotree_code : Option String
deriving DecidableEq

/-! Column-name constants, copied from the script. -/
def LABEL : String := "Primary Concept"

def RESOURCE_URI : String := "Resource URI"

def ONCOTREE_CODE : String := "notation (SKOS)"

def SCHEME_URI : String := "skos:inScheme URI"

def STATUS : String := "Status"

def INTERNAL_ID : String := "clinicalCasesSubset (OncoTree Tumor Type)"

def COLOR : String := "color (OncoTree Tumor Type)"

def MAIN_TYPE : String := "mainType (OncoTree Tumor Type)"

def PRECURSORS : String := "precursors (OncoTree Tumor Type)"

def PREFERRED_LABEL : String := "preferred label (SKOS)"

def REVOCATIONS : String := "revocations (OncoTree Tumor Type)"

def PARENT_RESOURCE_URI : String := "has broader (SKOS) URI"

def PARENT_LABEL : String := "has broader (SKOS)"

def PARENT_ONCOTREE_CODE : String := "parent oncotree code"

/-- Models `row[field]` for a column name. -/
def getField (r : Row) (f : String) : String :=
  if f == RESOURCE_URI then r.resource_uri
  else if f == LABEL then r.label
  else if f == SCHEME_URI then r.scheme_uri
  else if f == STATUS then r.status
  else if f == INTERNAL_ID then r.internal_id
  else if f == COLOR then r.color
  else if f == MAIN_TYPE then r.main_type
  else if f == ONCOTREE_CODE then r.oncotree_code
  else if f == PRECURSORS then r.precursors
  else if f == PREFERRED_LABEL then r.preferred_label
  else if f == REVOCATIONS then r.revocations
  else if f == PARENT_RESOURCE_URI then r.parent_resource_uri
  else if f == PARENT_LABEL then r.parent_label
  else match r.parent_oncotree_code with
    | some c => c
    | none => ""

def REQUIRED_FIELDS : List String :=
  [LABEL, SCHEME_URI, STATUS, INTERNAL_ID, COLOR, MAIN_TYPE, ONCOTREE_CODE,
   PREFERRED_LABEL, PARENT_RESOURCE_URI, PARENT_LABEL]

def TISSUE_NODE_REQUIRED_FIELDS : List String :=
  [RESOURCE_URI, LABEL, SCHEME_URI, STATUS, INTERNAL_ID, ONCOTREE_CODE,
   PREFERRED_LABEL]

def TISSUE : String := "TISSUE"

/-! ### Snapshot loading and index builders -/
def construct_pretty_label_for_row (internal_id code label : String) : String :=
  internal_id ++ ": " ++ label ++ " (" ++ code ++ ")"

def PUBLISHED : String := "Published"

/-- Embeds `get_oncotree`.  Returns the internal-id-to-row dict together with
the list of warnings printed for rows whose status is not "Published".
Note that the Python code prints the warning but still inserts the row. -/
def get_oncotree (rows : List Row) : List (String × Row) × List String :=
  rows.foldl (fun acc r =>
    let warns := if r.status != PUBLISHED then
        acc.2 ++ [construct_pretty_label_for_row r.internal_id r.oncotree_code r.label]
      else acc.2
    (dictSet acc.1 r.internal_id r, warns)) ([], [])

/-- Embeds `get_all_precursors`: precursor id → set of declaring internal ids. -/
def get_all_precursors (rows : List Row) : List (String × List String) :=
  rows.foldl (fun d r =>
    if r.precursors != "" then
      (pySplit r.precursors).foldl (fun d pid => multiDictAdd d pid r.internal_id) d
    else d) []

/-- Embeds `get_all_revocations`: revoked id → set of declaring internal ids. -/
def get_all_revocations (rows : List Row) : List (String × List String) :=
  rows.foldl (fun d r =>
    if r.revocations != "" then
      (pySplit r.revocations).foldl (fun d rid => multiDictAdd d rid r.internal_id) d
    else d) []

/-- Embeds `get_resource_uri_to_internal_ids`. -/
def get_resource_uri_to_internal_ids (rows : List Row) : List (String × String) :=
  rows.foldl (fun d r => dictSet d r.resource_uri r.internal_id) []

/-- Embeds `get_oncotree_codes_to_internal_ids`. -/
def get_oncotree_codes_to_internal_ids (rows : List Row) : List (String × String) :=
  rows.foldl (fun d r => dictSet d r.oncotree_code r.internal_id) []

/-! ### Per-snapshot validation (`validate_csv_file`)

The Python function scans the file twice.  The first pass builds the
child-to-parent dicts and fail-fast checks required fields and the
uniqueness of the three key columns.  The second pass accumulates
label-mismatch and invalid-parent findings, exits fail-fast on a TISSUE
row with a parent field set, and finally fails if either accumulated
list is non-empty. -/
inductive VErr
  | requiredFieldEmpty (field : String) (internal_id : String)
  | duplicateField (field : String) (value : String)
  | tissueParentFieldSet (internal_id : String)
  | accumulatedErrors (label_mismatches : List String) (parent_invalids : List String)
deriving DecidableEq

structure Pass1State where
  child_to_parent_resource_uris : List (String × String)
  child_uri_to_child_label : List (String × String)
  child_to_parent_labels : List (String × String)
  resource_uri_set : List String
  internal_id_set : List String
  oncotree_code_set : List String
deriving DecidableEq

def initPass1 : Pass1State := ⟨[], [], [], [], [], []⟩

/-- Which required-field list applies to a row (line 360 of the script). -/
def requiredFieldsFor (r : Row) : List String :=
  if r.oncotree_code == TISSUE then TISSUE_NODE_REQUIRED_FIELDS else REQUIRED_FIELDS

/-- Embeds the `field_is_required` loop over a row: the first empty required
field is a fatal error. -/
def rowRequiredErr (r : Row) : Option VErr :=
  (requiredFieldsFor r).findSome? (fun f =>
    if getField r f == "" then some (VErr.requiredFieldEmpty f r.internal_id) else none)

/-- Embeds the three `field_is_unique` calls on a row, in source order.
Empty values are exempt from the uniqueness rule. -/
def rowUniqueErr (s : Pass1State) (r : Row) : Option VErr :=
  if r.resource_uri != "" && s.resource_uri_set.contains r.resource_uri then
    some (VErr.duplicateField RESOURCE_URI r.resource_uri)
  else if r.internal_id != "" && s.internal_id_set.contains r.internal_id then
    some (VErr.duplicateField INTERNAL_ID r.internal_id)
  else if r.oncotree_code != "" && s.oncotree_code_set.contains r.oncotree_code then
    some (VErr.duplicateField ONCOTREE_CODE r.oncotree_code)
  else none

/-- One row of the first scan (lines 353-371 of the script). -/
def pass1Step (s : Pass1State) (r : Row) : Except VErr Pass1State :=
  let s1 : Pass1State := { s with
    child_to_parent_resource_uris :=
      dictSet s.child_to_parent_resource_uris r.resource_uri r.parent_resource_uri,
    child_uri_to_child_label := dictSet s.child_uri_to_child_label r.resource_uri r.label,
    child_to_parent_labels := dictSet s.child_to_parent_labels r.label r.parent_label }
  match rowRequiredErr r with
  | some e => .error e
  | none =>
    match rowUniqueErr s r with
    | some e => .error e
    | none => .ok { s1 with
        resource_uri_set := s1.resource_uri_set ++ [r.resource_uri],
        internal_id_set := s1.internal_id_set ++ [r.internal_id],
        oncotree_code_set := s1.oncotree_code_set ++ [r.oncotree_code] }

def pass1 (rows : List Row) : Except VErr Pass1State :=
  foldE pass1Step initPass1 rows

/-- Embeds `parent_resource_uri_and_label_are_valid` verbatim, including its
mismatched key usage: it tests `parent_label` for membership in the label
dict and in the uri-keyed dicts.  Where Python would raise `KeyError` on a
missing key, the `Option` lookup compares unequal instead; the call site
guards the lookup with a membership test on a dict that has the same keys,
so the two behaviours agree on every reachable input. -/
def parent_resource_uri_and_label_are_valid (parent_resource_uri parent_label : String)
    (child_to_parent_resource_uris child_uri_to_child_label
     child_to_parent_labels : List (String × String)) : Bool :=
  dictContains child_to_parent_labels parent_label &&
  dictContains child_to_parent_resource_uris parent_label &&
  (dictGet? child_uri_to_child_label parent_label == some parent_label)

structure Pass2Acc where
  label_mismatch_errors : List String
  parent_invalid_errors : List String
deriving DecidableEq

/-- True when a row has any parent-related field set (line 386). -/
def parentFieldsSet (r : Row) : Bool :=
  r.parent_resource_uri != "" || r.parent_label != "" ||
  (match r.parent_oncotree_code with
   | some c => c != ""
   | none => false)

def labelMismatchLine (r : Row) : String :=
  r.internal_id ++ ": " ++ r.label ++ " != " ++ r.preferred_label

def parentInvalidLine (r : Row) : String :=
  r.internal_id ++ ": URI " ++ r.parent_resource_uri ++ " and label " ++ r.parent_label

/-- One row of the second scan (lines 377-388 of the script). -/
def pass2Step (s : Pass1State) (acc : Pass2Acc) (r : Row) : Except VErr Pass2Acc :=
  let acc1 : Pass2Acc := if r.label != r.preferred_label then
      { acc with label_mismatch_errors := acc.label_mismatch_errors ++ [labelMismatchLine r] }
    else acc
  if r.oncotree_code != TISSUE &&
      parent_resource_uri_and_label_are_valid r.parent_resource_uri r.parent_label
        s.child_to_parent_resource_uris s.child_uri_to_child_label
        s.child_to_parent_labels then
    .ok { acc1 with parent_invalid_errors := acc1.parent_invalid_errors ++ [parentInvalidLine r] }
  else if r.oncotree_code == TISSUE then
    if parentFieldsSet r then .error (VErr.tissueParentFieldSet r.internal_id)
    else .ok acc1
  else .ok acc1

def pass2 (s : Pass1State) (rows : List Row) : Except VErr Pass2Acc :=
  foldE (pass2Step s) ⟨[], []⟩ rows

/-- Embeds `validate_csv_file` on already-parsed rows (the header check,
which needs the raw CSV header, is outside this model). -/
def validate_csv_file (rows : List Row) : Except VErr Unit := do
  let s ← pass1 rows
  let acc ← pass2 s rows
  if acc.label_mismatch_errors.isEmpty && acc.parent_invalid_errors.isEmpty then
    .ok ()
  else
    .error (VErr.accumulatedErrors acc.label_mismatch_errors acc.parent_invalid_errors)

/-! ### Reconciliation (`confirm_changes`) -/
inductive CErr
  | keyErrorNode (internal_id : String)
  | keyErrorUri (uri : String)
  | missingParentCodeColumn (internal_id : String)
  | parentCodeNotFound (code : String)
  | parentRefMissing (child : String)
  | codeForIdNotFound (internal_id : String)
  | newNodeHasResourceUri (internal_id : String)
  | precursorStillCurrent (precursor_id : String)
  | revocationStillCurrent (revocation_id : String)
  | revocationIsPrecursor (revocation_id : String)
  | revokesNewConcept (revocation_id : String) (internal_id : String)
  | resourceUriMissing (internal_id : String)
  | resourceUriChanged (internal_id : String)
deriving DecidableEq

/-- Dict lookup that fails like a Python `KeyError` on a node map. -/
def dictGetRow (d : List (String × Row)) (k : String) : Except CErr Row :=
  match d.find? (fun p => p.1 == k) with
  | some p => .ok p.2
  | none => .error (CErr.keyErrorNode k)

/-- Models Python truthiness of an optional string argument (`None` and the
empty string are falsy). -/
def pyTruthyOpt : Option String → Bool
  | none => false
  | some s => s != ""

/-- Embeds `get_parent_internal_id` (lines 107-119). -/
def get_parent_internal_id (child_internal_id parent_resource_uri : String)
    (parent_oncotree_code : Option String)
    (oncotree_codes_to_ids resource_uri_to_ids : List (String × String)) :
    Except CErr String :=
  if pyTruthyOpt parent_oncotree_code then
    match dictGet? oncotree_codes_to_ids (match parent_oncotree_code with
      | some c => c
      | none => "") with
    | some pid => .ok pid
    | none => .error (CErr.parentCodeNotFound (match parent_oncotree_code with
        | some c => c
        | none => ""))
  else if parent_resource_uri == "" then
    .error (CErr.parentRefMissing child_internal_id)
  else
    match dictGet? resource_uri_to_ids parent_resource_uri with
    | some pid => .ok pid
    | none => .error (CErr.keyErrorUri parent_resource_uri)

/-- Embeds `get_oncotree_code_from_internal_id` (lines 121-126): linear scan
of the code-to-id dict in insertion order for the first matching value. -/
def get_oncotree_code_from_internal_id (oncotree_codes_to_ids : List (String × String))
    (internal_id : String) : Except CErr String :=
  match oncotree_codes_to_ids.find? (fun p => p.2 == internal_id) with
  | some p => .ok p.1
  | none => .error (CErr.codeForIdNotFound internal_id)

def prettyOf (r : Row) : String :=
  construct_pretty_label_for_row r.internal_id r.oncotree_code r.label

/-- Removed ids: original keys minus modified keys (set difference). -/
def removed_internal_ids (orig modT : List (String × Row)) : List String :=
  (dictKeys orig).filter (fun k => !(dictKeys modT).contains k)

/-- New ids: modified keys minus original keys (set difference). -/
def new_internal_ids (orig modT : List (String × Row)) : List String :=
  (dictKeys modT).filter (fun k => !(dictKeys orig).contains k)

/-- Retained ids: keys present in both snapshots (set intersection). -/
def in_both_internal_ids (orig modT : List (String × Row)) : List String :=
  (dictKeys orig).filter (fun k => (dictKeys modT).contains k)

/-- One removed id (lines 156-159). -/
def removedLineStep (orig : List (String × Row)) (id : String) :
    Except CErr String := do
  let data ← dictGetRow orig id
  pure (prettyOf data)

/-- Lines 154-162: removed nodes, printed in sorted id order. -/
def removedStage (orig modT : List (String × Row)) : Except CErr (List String) :=
  mapE (removedLineStep orig) (sortedIds (removed_internal_ids orig modT))

/-- One new id (lines 166-177): a new node with a resource uri is fatal,
otherwise its parent is resolved and shown. -/
def newNodeStep (modT : List (String × Row))
    (oncotree_codes_to_ids mod_uris_to_ids : List (String × String))
    (id : String) : Except CErr String := do
  let data ← dictGetRow modT id
  if data.resource_uri != "" then
    .error (CErr.newNodeHasResourceUri id)
  else do
    let pid ← get_parent_internal_id id data.parent_resource_uri
      data.parent_oncotree_code oncotree_codes_to_ids mod_uris_to_ids
    let pdata ← dictGetRow modT pid
    pure (prettyOf data ++ " has parent " ++
      construct_pretty_label_for_row pid pdata.oncotree_code pdata.label)

/-- Lines 164-179: new nodes, in sorted id order. -/
def newStage (modT : List (String × Row))
    (oncotree_codes_to_ids mod_uris_to_ids : List (String × String))
    (newIds : List String) : Except CErr (List String) :=
  mapE (newNodeStep modT oncotree_codes_to_ids mod_uris_to_ids) (sortedIds newIds)

def UNKNOWN : String := "unknown"

def lookupCodeOrUnknown (internal_id_to_oncocodes : List (String × String))
    (id : String) : String :=
  match dictGet? internal_id_to_oncocodes id with
  | some c => c
  | none => UNKNOWN

/-- Lines 181-195: one precursor-index key.  The inner loop
`for internal_id in precursor_of_set` (line 190) iterates a Python set; this
definition visits the value set at the representation's insertion order,
whereas the actual per-run order is unspecified — `precursorKeyStepO` makes
that order an explicit parameter, and this definition is its instance at
`multiDictGet precursorIdx`. -/
def precursorKeyStep (modT : List (String × Row))
    (precursorIdx : List (String × List String)) (modifiedIdSet : List String)
    (internal_id_to_oncocodes : List (String × String)) (pid : String) :
    Except CErr (List String) := do
  let pcode := lookupCodeOrUnknown internal_id_to_oncocodes pid
  if modifiedIdSet.contains pid then
    .error (CErr.precursorStillCurrent pid)
  else
    mapE (fun iid => do
      let data ← dictGetRow modT iid
      pure (pid ++ " (" ++ pcode ++ ") -> " ++ prettyOf data)) (multiDictGet precursorIdx pid)

/-- Lines 181-195: the precursor summary, keys in sorted order. -/
def precursorStage (modT : List (String × Row))
    (precursorIdx : List (String × List String)) (modifiedIdSet : List String)
    (internal_id_to_oncocodes : List (String × String)) : Except CErr (List String) := do
  let chunks ← mapE
    (precursorKeyStep modT precursorIdx modifiedIdSet internal_id_to_oncocodes)
    (sortedIds (dictKeys precursorIdx))
  pure chunks.flatten

/-- Lines 197-216: one revocation-index key.  As with the precursor loop,
`for internal_id in revocation_of_set` (line 208) iterates a Python set
whose per-run order is unspecified; this definition fixes the
representation's insertion order and is the instance of
`revocationKeyStepO` at `multiDictGet revocationIdx`. -/
def revocationKeyStep (modT : List (String × Row))
    (revocationIdx precursorIdx : List (String × List String))
    (modifiedIdSet newIds : List String)
    (internal_id_to_oncocodes : List (String × String)) (rid : String) :
    Except CErr (List String) := do
  let rcode := lookupCodeOrUnknown internal_id_to_oncocodes rid
  if modifiedIdSet.contains rid then
    .error (CErr.revocationStillCurrent rid)
  else if (dictKeys precursorIdx).contains rid then
    .error (CErr.revocationIsPrecursor rid)
  else
    mapE (fun iid => do
      if newIds.contains iid then
        .error (CErr.revokesNewConcept rid iid)
      else do
        let data ← dictGetRow modT iid
        pure (rid ++ " (" ++ rcode ++ ") -> " ++ prettyOf data)) (multiDictGet revocationIdx rid)

/-- Lines 197-216: the revocation summary, keys in sorted order. -/
def revocationStage (modT : List (String × Row))
    (revocationIdx precursorIdx : List (String × List String))
    (modifiedIdSet newIds : List String)
    (internal_id_to_oncocodes : List (String × String)) : Except CErr (List String) := do
  let chunks ← mapE
    (revocationKeyStep modT revocationIdx precursorIdx modifiedIdSet newIds
      internal_id_to_oncocodes)
    (sortedIds (dictKeys revocationIdx))
  pure chunks.flatten

/-- Lines 181-195 with the per-key value-set iteration order made explicit:
`vop pid` is the order in which one particular run's
`for internal_id in precursor_of_set` loop (line 190) happens to visit the
unordered value set of key `pid` — any permutation of that set.
`precursorKeyStep` is this definition at `vop := multiDictGet precursorIdx`. -/
def precursorKeyStepO (modT : List (String × Row)) (modifiedIdSet : List String)
    (internal_id_to_oncocodes : List (String × String))
    (vop : String → List String) (pid : String) : Except CErr (List String) := do
  let pcode := lookupCodeOrUnknown internal_id_to_oncocodes pid
  if modifiedIdSet.contains pid then
    .error (CErr.precursorStillCurrent pid)
  else
    mapE (fun iid => do
      let data ← dictGetRow modT iid
      pure (pid ++ " (" ++ pcode ++ ") -> " ++ prettyOf data)) (vop pid)

/-- The precursor summary with explicit per-key value orders: keys still in
sorted order (line 183), value sets visited in the run's order `vop`. -/
def precursorStageO (modT : List (String × Row))
    (precursorIdx : List (String × List String)) (modifiedIdSet : List String)
    (internal_id_to_oncocodes : List (String × String))
    (vop : String → List String) : Except CErr (List String) := do
  let chunks ← mapE
    (precursorKeyStepO modT modifiedIdSet internal_id_to_oncocodes vop)
    (sortedIds (dictKeys precursorIdx))
  pure chunks.flatten

/-- Lines 197-216 with the per-key value-set iteration order made explicit:
`vor rid` is the order in which one run's
`for internal_id in revocation_of_set` loop (line 208) visits the unordered
value set of key `rid`.  `revocationKeyStep` is this definition at
`vor := multiDictGet revocationIdx`. -/
def revocationKeyStepO (modT : List (String × Row))
    (precursorIdx : List (String × List String))
    (modifiedIdSet newIds : List String)
    (internal_id_to_oncocodes : List (String × String))
    (vor : String → List String) (rid : String) : Except CErr (List String) := do
  let rcode := lookupCodeOrUnknown internal_id_to_oncocodes rid
  if modifiedIdSet.contains rid then
    .error (CErr.revocationStillCurrent rid)
  else if (dictKeys precursorIdx).contains rid then
    .error (CErr.revocationIsPrecursor rid)
  else
    mapE (fun iid => do
      if newIds.contains iid then
        .error (CErr.revokesNewConcept rid iid)
      else do
        let data ← dictGetRow modT iid
        pure (rid ++ " (" ++ rcode ++ ") -> " ++ prettyOf data)) (vor rid)

/-- The revocation summary with explicit per-key value orders: keys still in
sorted order (line 199), value sets visited in the run's order `vor`. -/
def revocationStageO (modT : List (String × Row))
    (revocationIdx precursorIdx : List (String × List String))
    (modifiedIdSet newIds : List String)
    (internal_id_to_oncocodes : List (String × String))
    (vor : String → List String) : Except CErr (List String) := do
  let chunks ← mapE
    (revocationKeyStepO modT precursorIdx modifiedIdSet newIds
      internal_id_to_oncocodes vor)
    (sortedIds (dictKeys revocationIdx))
  pure chunks.flatten

/-- Models the `DeepDiff(original_data, modified_data)` `values_changed`
entry set on two row dicts: the column names present in both dicts whose
values differ.  Columns present in only one dict (the parent-oncotree-code
column of the modified schema) appear as dictionary additions or removals
in DeepDiff, not as value changes, and the script ignores those. -/
def deep_diff_values_changed (o m : Row) : List String :=
  (if o.resource_uri != m.resource_uri then [RESOURCE_URI] else []) ++
  (if o.label != m.label then [LABEL] else []) ++
  (if o.scheme_uri != m.scheme_uri then [SCHEME_URI] else []) ++
  (if o.status != m.status then [STATUS] else []) ++
  (if o.internal_id != m.internal_id then [INTERNAL_ID] else []) ++
  (if o.color != m.color then [COLOR] else []) ++
  (if o.main_type != m.main_type then [MAIN_TYPE] else []) ++
  (if o.oncotree_code != m.oncotree_code then [ONCOTREE_CODE] else []) ++
  (if o.precursors != m.precursors then [PRECURSORS] else []) ++
  (if o.preferred_label != m.preferred_label then [PREFERRED_LABEL] else []) ++
  (if o.revocations != m.revocations then [REVOCATIONS] else []) ++
  (if o.parent_resource_uri != m.parent_resource_uri then [PARENT_RESOURCE_URI] else []) ++
  (if o.parent_label != m.parent_label then [PARENT_LABEL] else []) ++
  (match o.parent_oncotree_code, m.parent_oncotree_code with
   | some a, some b => if a != b then [PARENT_ONCOTREE_CODE] else []
   | _, _ => [])

/-- Line 227: drop the known internal-id change from the diff; line 229:
emit the pair when nothing else changed. -/
def candidate_diff_is_empty (o m : Row) : Bool :=
  ((deep_diff_values_changed o m).filter (fun f => f != INTERNAL_ID)).isEmpty

def candidateLine (o m : Row) : String :=
  prettyOf o ++ " -> " ++ prettyOf m

/-- One pair of the candidate comparison (lines 222-234): the pair is
reported exactly when the diff without the internal id entry is empty. -/
def candidatePairStep (orig modT : List (String × Row)) (p : String × String) :
    Except CErr (Option String) := do
  let original_data ← dictGetRow orig p.1
  let modified_data ← dictGetRow modT p.2
  if candidate_diff_is_empty original_data modified_data then
    pure (some (candidateLine original_data modified_data))
  else
    pure none

/-- Lines 218-236: identity-change candidates.  `pairOrder` enumerates the
Python set comprehension over removed × new, whose iteration order is
unspecified. -/
def candidateStage (orig modT : List (String × Row))
    (pairOrder : List (String × String)) : Except CErr (List String) := do
  let outs ← mapE (candidatePairStep orig modT) pairOrder
  pure (outs.filterMap (fun o => o))

def TISSUE_INTERNAL_ID : String := "ONC000001"

structure RetainedOut where
  codeMsg : Option String
  parentMsg : Option String
deriving DecidableEq

def codeChangeLine (o m : Row) : String :=
  prettyOf o ++ " -> " ++ prettyOf m

def parentChangeLine (o m : Row) (ocode mcode : String) : String :=
  "child: " ++ prettyOf o ++ " parent: " ++ ocode ++
  " -> child: " ++ prettyOf m ++ " parent: " ++ mcode

/-- The oncotree-code change note of a retained id (lines 256-257). -/
def codeMsgOf (original_data modified_data : Row) : Option String :=
  if original_data.oncotree_code != modified_data.oncotree_code then
    some (codeChangeLine original_data modified_data)
  else none

/-- Lines 262-270: the modified-side parent of a retained row as an
oncotree code — the parent-code column when non-empty, otherwise the
resolution chain resource uri to internal id to code.  A modified row
without the parent-code column would raise a `KeyError` in Python. -/
def modifiedParentCode (oncotree_codes_to_ids mod_uris_to_ids : List (String × String))
    (id : String) (modified_data : Row) : Except CErr String := do
  let mpoc ← (match modified_data.parent_oncotree_code with
    | some c => Except.ok c
    | none => Except.error (CErr.missingParentCodeColumn id))
  if mpoc != "" then pure mpoc
  else do
    let mpid ← get_parent_internal_id id modified_data.parent_resource_uri
      modified_data.parent_oncotree_code oncotree_codes_to_ids mod_uris_to_ids
    get_oncotree_code_from_internal_id oncotree_codes_to_ids mpid

/-- Lines 272-279: the original-side parent of a retained row as an
oncotree code, resolved through the uri map and inverted through the code
map (the original schema has no parent-code column, so `None` is passed). -/
def originalParentCode (oncotree_codes_to_ids orig_uris_to_ids : List (String × String))
    (id : String) (original_data : Row) : Except CErr String := do
  let opid ← get_parent_internal_id id original_data.parent_resource_uri
    none oncotree_codes_to_ids orig_uris_to_ids
  get_oncotree_code_from_internal_id oncotree_codes_to_ids opid

/-- Lines 241-281: one retained id.  Checks the resource uri invariants,
records an oncotree-code change, and — except for the hardcoded internal id
"ONC000001" — resolves the parent in both snapshots to an oncotree code and
records a parent change. -/
def retainedStep (orig modT : List (String × Row))
    (oncotree_codes_to_ids orig_uris_to_ids mod_uris_to_ids : List (String × String))
    (id : String) : Except CErr RetainedOut := do
  let original_data ← dictGetRow orig id
  let modified_data ← dictGetRow modT id
  if stripIsEmpty original_data.resource_uri then
    .error (CErr.resourceUriMissing id)
  else if original_data.resource_uri != modified_data.resource_uri then
    .error (CErr.resourceUriChanged id)
  else do
    let codeMsg := codeMsgOf original_data modified_data
    if id == TISSUE_INTERNAL_ID then
      pure { codeMsg := codeMsg, parentMsg := none }
    else do
      let mcode ← modifiedParentCode oncotree_codes_to_ids mod_uris_to_ids id
        modified_data
      let ocode ← originalParentCode oncotree_codes_to_ids orig_uris_to_ids id
        original_data
      let parentMsg := if ocode != mcode then
          some (parentChangeLine original_data modified_data ocode mcode)
        else none
      pure { codeMsg := codeMsg, parentMsg := parentMsg }

/-- Lines 239-281: the loop over retained ids.  `ibo` enumerates the Python
set `in_both_internal_ids`, whose iteration order is unspecified. -/
def retainedStage (orig modT : List (String × Row))
    (oncotree_codes_to_ids orig_uris_to_ids mod_uris_to_ids : List (String × String))
    (ibo : List String) : Except CErr (List String × List String) := do
  let outs ← mapE (retainedStep orig modT oncotree_codes_to_ids
    orig_uris_to_ids mod_uris_to_ids) ibo
  pure (outs.filterMap (fun o => o.codeMsg), outs.filterMap (fun o => o.parentMsg))

/-- The printed report of `confirm_changes`, one list per aggregate. -/
structure Report where
  removed_lines : List String
  new_lines : List String
  precursor_lines : List String
  revocation_lines : List String
  candidate_lines : List String
  code_change_messages : List String
  parent_change_messages : List String
deriving DecidableEq

/-- Embeds `confirm_changes` (lines 128-300) up to the final interactive
confirmation.  Fatal `sys.exit(1)` paths become errors; the report is the
value. `pairOrder` and `ibo` enumerate the two Python sets the script
iterates without sorting. -/
def confirm_changes (orig modT : List (String × Row))
    (precursorIdx revocationIdx : List (String × List String))
    (orig_uris_to_ids mod_uris_to_ids : List (String × String))
    (internal_id_to_oncocodes oncotree_codes_to_ids : List (String × String))
    (pairOrder : List (String × String)) (ibo : List String) :
    Except CErr Report := do
  let newIds := new_internal_ids orig modT
  let modifiedIdSet := dictKeys modT
  let removed_lines ← removedStage orig modT
  let new_lines ← newStage modT oncotree_codes_to_ids mod_uris_to_ids newIds
  let precursor_lines ← precursorStage modT precursorIdx modifiedIdSet internal_id_to_oncocodes
  let revocation_lines ← revocationStage modT revocationIdx precursorIdx modifiedIdSet
    newIds internal_id_to_oncocodes
  let candidate_lines ← candidateStage orig modT pairOrder
  let msgs ← retainedStage orig modT oncotree_codes_to_ids orig_uris_to_ids
    mod_uris_to_ids ibo
  pure { removed_lines := removed_lines, new_lines := new_lines,
         precursor_lines := precursor_lines, revocation_lines := revocation_lines,
         candidate_lines := candidate_lines, code_change_messages := msgs.1,
         parent_change_messages := msgs.2 }

/-- `confirm_changes` with every unordered iteration of the script made an
explicit parameter: besides `pairOrder` (the removed-by-new pair set of
line 222) and `ibo` (the retained-id set of line 241), `vop` and `vor` give,
for each precursor and revocation key, the order in which that run's
value-set loops of lines 190 and 208 visit the unordered sets.
`confirm_changes` is this definition at the insertion orders
`multiDictGet precursorIdx` and `multiDictGet revocationIdx`
(`confirm_changes_eq_vo`). -/
def confirm_changes_vo (orig modT : List (String × Row))
    (precursorIdx revocationIdx : List (String × List String))
    (orig_uris_to_ids mod_uris_to_ids : List (String × String))
    (internal_id_to_oncocodes oncotree_codes_to_ids : List (String × String))
    (pairOrder : List (String × String)) (ibo : List String)
    (vop vor : String → List String) : Except CErr Report := do
  let newIds := new_internal_ids orig modT
  let modifiedIdSet := dictKeys modT
  let removed_lines ← removedStage orig modT
  let new_lines ← newStage modT oncotree_codes_to_ids mod_uris_to_ids newIds
  let precursor_lines ← precursorStageO modT precursorIdx modifiedIdSet
    internal_id_to_oncocodes vop
  let revocation_lines ← revocationStageO modT revocationIdx precursorIdx
    modifiedIdSet newIds internal_id_to_oncocodes vor
  let candidate_lines ← candidateStage orig modT pairOrder
  let msgs ← retainedStage orig modT oncotree_codes_to_ids orig_uris_to_ids
    mod_uris_to_ids ibo
  pure { removed_lines := removed_lines, new_lines := new_lines,
         precursor_lines := precursor_lines, revocation_lines := revocation_lines,
         candidate_lines := candidate_lines, code_change_messages := msgs.1,
         parent_change_messages := msgs.2 }

/-- The precursor and revocation checks as one stage (spec section 4.4's
`validate_lineage` contract; lines 181-216 of the script). -/
def lineage_validation (modT : List (String × Row))
    (precursorIdx revocationIdx : List (String × List String))
    (modifiedIdSet newIds : List String)
    (internal_id_to_oncocodes : List (String × String)) :
    Except CErr (List String × List String) := do
  let pl ← precursorStage modT precursorIdx modifiedIdSet internal_id_to_oncocodes
  let vl ← revocationStage modT revocationIdx precursorIdx modifiedIdSet newIds
    internal_id_to_oncocodes
  pure (pl, vl)

/-- Specification-side reading of the identity-change test: the two rows
agree on every column they share except the internal id (the modified
schema's extra parent-code column has no counterpart in an original-schema
row and so is not a shared column). -/
def rows_equal_except_internal_id (o m : Row) : Bool :=
  o.resource_uri == m.resource_uri && o.label == m.label &&
  o.scheme_uri == m.scheme_uri && o.status == m.status &&
  o.color == m.color && o.main_type == m.main_type &&
  o.oncotree_code == m.oncotree_code && o.precursors == m.precursors &&
  o.preferred_label == m.preferred_label && o.revocations == m.revocations &&
  o.parent_resource_uri == m.parent_resource_uri &&
  o.parent_label == m.parent_label &&
  (match o.parent_oncotree_code, m.parent_oncotree_code with
   | some a, some b => a == b
   | _, _ => true)

/-- Specification-side reading of one candidate pair: the emitted line when
the rows differ only in internal id, nothing otherwise. -/
def candidateLineFor (orig modT : List (String × Row)) (p : String × String) :
    Option String :=
  match dictGetRow orig p.1, dictGetRow modT p.2 with
  | .ok od, .ok md =>
    if rows_equal_except_internal_id od md then some (candidateLine od md) else none
  | _, _ => none

/-- The three error kinds the script raises on resource-uri grounds:
a new node claiming a resource uri (line 171), a retained node whose
original resource uri is blank (line 249), and a retained node whose
resource uri changed (line 253). -/
def isResourceUriErr : CErr → Bool
  | .newNodeHasResourceUri _ => true
  | .resourceUriMissing _ => true
  | .resourceUriChanged _ => true
  | _ => false

/-! ### Concrete fixtures used by witnesses and counterexamples -/
/-- A modified-snapshot row that declares a revocation of "ONC000999". -/
def revokingRow : Row :=
  { resource_uri := "", label := "Thymus", scheme_uri := "sch",
    status := "Published", internal_id := "ONC000010", color := "Red",
    main_type := "Thymus", oncotree_code := "THYM", precursors := "",
    preferred_label := "Thymus", revocations := "ONC000999",
    parent_resource_uri := "", parent_label := "",
    parent_oncotree_code := some "TISSUE" }

def modTreeLineage : List (String × Row) := (get_oncotree [revokingRow]).1

/-- A retained node as it appears in the original snapshot. -/
def kidneyRowOrig : Row :=
  { resource_uri := "http://x/5", label := "Kidney", scheme_uri := "sch",
    status := "Published", internal_id := "ONC000005", color := "Y",
    main_type := "Kidney", oncotree_code := "KID", precursors := "",
    preferred_label := "Kidney", revocations := "",
    parent_resource_uri := "http://x/1", parent_label := "Tissue",
    parent_oncotree_code := none }

/-- The same node in the modified snapshot, with a changed resource uri. -/
def kidneyRowMod : Row :=
  { resource_uri := "http://x/6", label := "Kidney", scheme_uri := "sch",
    status := "Published", internal_id := "ONC000005", color := "Y",
    main_type := "Kidney", oncotree_code := "KID", precursors := "",
    preferred_label := "Kidney", revocations := "",
    parent_resource_uri := "http://x/1", parent_label := "Tissue",
    parent_oncotree_code := some "TISSUE" }

def origTreeKid : List (String × Row) := (get_oncotree [kidneyRowOrig]).1

def modTreeKid : List (String × Row) := (get_oncotree [kidneyRowMod]).1

/-- A row that reuses an existing resource uri under fresh ids. -/
def dupUriRow : Row :=
  { resource_uri := "http://x/2", label := "Liver", scheme_uri := "sch",
    status := "Published", internal_id := "ONC000009", color := "Green",
    main_type := "Liver", oncotree_code := "LIVER", precursors := "",
    preferred_label := "Liver", revocations := "",
    parent_resource_uri := "http://x/1", parent_label := "Tissue",
    parent_oncotree_code := none }

/-- The first-pass state after scanning `[childRowDangling]`. -/
def pass1StateDup : Pass1State :=
  ⟨[("http://x/2", "http://x/999")], [("http://x/2", "Lung")], [("Lung", "Nowhere")],
   ["http://x/2"], ["ONC000002"], ["LUNG"]⟩

/-- A root row with a parent resource uri set. -/
def tissueRowBad : Row :=
  { resource_uri := "http://x/1", label := "Tissue", scheme_uri := "sch",
    status := "Published", internal_id := "ONC000001", color := "",
    main_type := "", oncotree_code := "TISSUE", precursors := "",
    preferred_label := "Tissue", revocations := "",
    parent_resource_uri := "http://x/9", parent_label := "",
    parent_oncotree_code := none }

/-- The first-pass state after scanning `[tissueRowBad]`. -/
def pass1StateTissueBad : Pass1State :=
  ⟨[("http://x/1", "http://x/9")], [("http://x/1", "Tissue")], [("Tissue", "")],
   ["http://x/1"], ["ONC000001"], ["TISSUE"]⟩

/-- A removed node of the original snapshot. -/
def removedRowX : Row :=
  { resource_uri := "http://x/7", label := "Lymph", scheme_uri := "sch",
    status := "Published", internal_id := "ONC000020", color := "Blue",
    main_type := "Lymph", oncotree_code := "LYM", precursors := "",
    preferred_label := "Lymph", revocations := "",
    parent_resource_uri := "http://x/1", parent_label := "Tissue",
    parent_oncotree_code := none }

/-- A new node of the modified snapshot, equal to `removedRowX` on every
shared column except the internal id. -/
def addedRowY : Row :=
  { resource_uri := "http://x/7", label := "Lymph", scheme_uri := "sch",
    status := "Published", internal_id := "ONC000021", color := "Blue",
    main_type := "Lymph", oncotree_code := "LYM", precursors := "",
    preferred_label := "Lymph", revocations := "",
    parent_resource_uri := "http://x/1", parent_label := "Tissue",
    parent_oncotree_code := some "" }

def origTreeX : List (String × Row) := (get_oncotree [removedRowX]).1

def modTreeY : List (String × Row) := (get_oncotree [addedRowY]).1

/-- Fixture forest for the retained-id loop: a node with internal id
"ONC000001" but code "LUNG", and two other retained nodes. -/
def n1Orig : Row :=
  { resource_uri := "http://x/30", label := "Lung", scheme_uri := "sch",
    status := "Published", internal_id := "ONC000001", color := "C",
    main_type := "M", oncotree_code := "LUNG", precursors := "",
    preferred_label := "Lung", revocations := "",
    parent_resource_uri := "http://x/31", parent_label := "ParentA",
    parent_oncotree_code := none }

def p1Orig : Row :=
  { resource_uri := "http://x/31", label := "ParentA", scheme_uri := "sch",
    status := "Published", internal_id := "ONC000002", color := "C",
    main_type := "M", oncotree_code := "PA", precursors := "",
    preferred_label := "ParentA", revocations := "",
    parent_resource_uri := "http://x/30", parent_label := "Lung",
    parent_oncotree_code := none }

def p2Orig : Row :=
  { resource_uri := "http://x/32", label := "ParentB", scheme_uri := "sch",
    status := "Published", internal_id := "ONC000003", color := "C",
    main_type := "M", oncotree_code := "PB", precursors := "",
    preferred_label := "ParentB", revocations := "",
    parent_resource_uri := "http://x/30", parent_label := "Lung",
    parent_oncotree_code := none }

/-- The modified twin of `n1Orig`: its declared parent moved from ParentA
to ParentB. -/
def n1Mod : Row :=
  { resource_uri := "http://x/30", label := "Lung", scheme_uri := "sch",
    status := "Published", internal_id := "ONC000001", color := "C",
    main_type := "M", oncotree_code := "LUNG", precursors := "",
    preferred_label := "Lung", revocations := "",
    parent_resource_uri := "http://x/32", parent_label := "ParentB",
    parent_oncotree_code := some "PB" }

/-- The modified twin of `p1Orig`, with a changed oncotree code. -/
def p1Mod : Row :=
  { resource_uri := "http://x/31", label := "ParentA", scheme_uri := "sch",
    status := "Published", internal_id := "ONC000002", color := "C",
    main_type := "M", oncotree_code := "PA2", precursors := "",
    preferred_label := "ParentA", revocations := "",
    parent_resource_uri := "http://x/30", parent_label := "Lung",
    parent_oncotree_code := some "LUNG" }

/-- The modified twin of `p2Orig`, with a changed oncotree code. -/
def p2Mod : Row :=
  { resource_uri := "http://x/32", label := "ParentB", scheme_uri := "sch",
    status := "Published", internal_id := "ONC000003", color := "C",
    main_type := "M", oncotree_code := "PB2", precursors := "",
    preferred_label := "ParentB", revocations := "",
    parent_resource_uri := "http://x/30", parent_label := "Lung",
    parent_oncotree_code := some "LUNG" }

def origT6 : List (String × Row) := (get_oncotree [n1Orig, p1Orig, p2Orig]).1

def modT6 : List (String × Row) := (get_oncotree [n1Mod, p1Mod, p2Mod]).1

def origUris6 : List (String × String) :=
  get_resource_uri_to_internal_ids [n1Orig, p1Orig, p2Orig]

def modUris6 : List (String × String) :=
  get_resource_uri_to_internal_ids [n1Mod, p1Mod, p2Mod]

def codesMap6 : List (String × String) :=
  get_oncotree_codes_to_internal_ids [n1Mod, p1Mod, p2Mod]

/-- A precursor index whose single key (a retired id absent from the
fixture forest) carries a two-element value set, so the order of the inner
value-set loop is observable. -/
def pIdx7 : List (String × List String) :=
  [("ONC000009", ["ONC000002", "ONC000003"])]

/-- One run's iteration order of the `pIdx7` value sets: the insertion
order itself. -/
def pvoFwd : String → List String := fun k => multiDictGet pIdx7 k

/-- Another run's iteration order of the same value sets: each visited in
reverse. -/
def pvoRev : String → List String := fun k => (multiDictGet pIdx7 k).reverse

/-- The (vacuous) value order of an empty revocation index. -/
def vorNil : String → List String :=
  fun k => multiDictGet ([] : List (String × List String)) k

/-- What the original-snapshot parent of the "ONC000001" node resolves to,
had the script compared it. -/
def resolvedOrigParentCodeC6 : Except CErr String :=
  originalParentCode codesMap6 origUris6 "ONC000001" n1Orig

def pIdxLineage : List (String × List String) := get_all_precursors [revokingRow]

def rIdxLineage : List (String × List String) := get_all_revocations [revokingRow]

/-- A valid root row of the original schema (reduced required-field set:
`color` and `main_type` may stay empty). -/
def tissueRowA : Row :=
  { resource_uri := "http://x/1", label := "Tissue", scheme_uri := "sch",
    status := "Published", internal_id := "ONC000001", color := "",
    main_type := "", oncotree_code := "TISSUE", precursors := "",
    preferred_label := "Tissue", revocations := "", parent_resource_uri := "",
    parent_label := "", parent_oncotree_code := none }

/-- A row whose declared parent pair matches no row of its file. -/
def childRowDangling : Row :=
  { resource_uri := "http://x/2", label := "Lung", scheme_uri := "sch",
    status := "Published", internal_id := "ONC000002", color := "Blue",
    main_type := "Lung", oncotree_code := "LUNG", precursors := "",
    preferred_label := "Lung", revocations := "",
    parent_resource_uri := "http://x/999", parent_label := "Nowhere",
    parent_oncotree_code := none }

/-- A row with a status other than "Published". -/
def draftRow : Row :=
  { resource_uri := "http://x/3", label := "Breast", scheme_uri := "sch",
    status := "Draft", internal_id := "ONC000003", color := "Pink",
    main_type := "Breast", oncotree_code := "BREAST", precursors := "",
    preferred_label := "Breast", revocations := "",
    parent_resource_uri := "http://x/1", parent_label := "Tissue",
    parent_oncotree_code := none }

/-! ### Theorems -/

theorem lexLeChars_total (l m : List Char) :
    strLe.lexLeChars l m = true ∨ strLe.lexLeChars m l = true := by
  induction l generalizing m with
  | nil => left; rfl
  | cons c cs ih =>
    cases m with
    | nil => right; rfl
    | cons d ds =>
      simp only [strLe.lexLeChars]
      rcases Nat.lt_trichotomy c.toNat d.toNat with h | h | h
      · left; simp [h]
      · have h1 : ¬ c.toNat < d.toNat := by omega
        have h2 : ¬ d.toNat < c.toNat := by omega
        rcases ih ds with h3 | h3
        · left; simp [h1, h2, h3]
        · right; simp [h1, h2, h3]
      · right; simp [h, Nat.lt_asymm h]

theorem lexLeChars_trans (l m k : List Char) (h1 : strLe.lexLeChars l m = true)
    (h2 : strLe.lexLeChars m k = true) : strLe.lexLeChars l k = true := by
  induction l generalizing m k with
  | nil => rfl
  | cons c cs ih =>
    cases m with
    | nil => simp [strLe.lexLeChars] at h1
    | cons d ds =>
      cases k with
      | nil => simp [strLe.lexLeChars] at h2
      | cons e es =>
        simp only [strLe.lexLeChars] at h1 h2 ⊢
        by_cases hcd : c.toNat < d.toNat
        · by_cases hde : d.toNat < e.toNat
          · simp [show c.toNat < e.toNat by omega]
          · rw [if_neg hde] at h2
            by_cases hed : e.toNat < d.toNat
            · rw [if_pos hed] at h2; exact absurd h2 (by decide)
            · simp [show c.toNat < e.toNat by omega]
        · rw [if_neg hcd] at h1
          by_cases hdc : d.toNat < c.toNat
          · rw [if_pos hdc] at h1; exact absurd h1 (by decide)
          · rw [if_neg hdc] at h1
            by_cases hde : d.toNat < e.toNat
            · simp [show c.toNat < e.toNat by omega]
            · rw [if_neg hde] at h2
              by_cases hed : e.toNat < d.toNat
              · rw [if_pos hed] at h2; exact absurd h2 (by decide)
              · rw [if_neg hed] at h2
                rw [if_neg (show ¬ c.toNat < e.toNat by omega),
                  if_neg (show ¬ e.toNat < c.toNat by omega)]
                exact ih ds es h1 h2

theorem strLe_total (a b : String) : strLe a b = true ∨ strLe b a = true :=
  lexLeChars_total a.data b.data

theorem strLe_trans (a b c : String) (h1 : strLe a b = true) (h2 : strLe b c = true) :
    strLe a c = true :=
  lexLeChars_trans a.data b.data c.data h1 h2

theorem mem_insertSorted (a x : String) (l : List String) :
    a ∈ insertSorted x l ↔ a = x ∨ a ∈ l := by
  induction l with
  | nil => simp [insertSorted]
  | cons y ys ih =>
    simp only [insertSorted]
    by_cases h : strLe x y = true
    · simp only [if_pos h, List.mem_cons]
    · simp only [if_neg h, List.mem_cons, ih]
      tauto

theorem mem_sortedIds (a : String) (l : List String) : a ∈ sortedIds l ↔ a ∈ l := by
  induction l with
  | nil => simp [sortedIds]
  | cons x xs ih =>
    simp only [sortedIds, List.foldr] at *
    rw [mem_insertSorted, ih, List.mem_cons]

theorem pairwise_insertSorted (x : String) (l : List String)
    (h : l.Pairwise (fun a b => strLe a b = true)) :
    (insertSorted x l).Pairwise (fun a b => strLe a b = true) := by
  induction l with
  | nil => simp [insertSorted]
  | cons y ys ih =>
    rcases List.pairwise_cons.mp h with ⟨hy, hys⟩
    simp only [insertSorted]
    by_cases hle : strLe x y = true
    · simp only [if_pos hle]
      refine List.pairwise_cons.mpr ⟨?_, h⟩
      intro b hb
      rcases List.mem_cons.mp hb with rfl | hb
      · exact hle
      · exact strLe_trans x y b hle (hy b hb)
    · simp only [if_neg hle]
      refine List.pairwise_cons.mpr ⟨?_, ih hys⟩
      intro b hb
      rcases (mem_insertSorted b x ys).mp hb with rfl | hb
      · rcases strLe_total b y with h1 | h1
        · exact absurd h1 hle
        · exact h1
      · exact hy b hb

theorem pairwise_sortedIds (l : List String) :
    (sortedIds l).Pairwise (fun a b => strLe a b = true) := by
  induction l with
  | nil => simp [sortedIds]
  | cons x xs ih => exact pairwise_insertSorted x (sortedIds xs) ih

theorem mapE_ok_iff {ε α β : Type} (f : α → Except ε β) (l : List α) :
    (∃ ys, mapE f l = .ok ys) ↔ ∀ x ∈ l, ∃ y, f x = .ok y := by
  induction l with
  | nil => simp [mapE]
  | cons x xs ih =>
    simp only [mapE]
    constructor
    · rintro ⟨ys, hys⟩ a ha
      rcases List.mem_cons.mp ha with rfl | ha
      · cases hfa : f a with
        | error e => rw [hfa] at hys; exact absurd hys (by simp)
        | ok y => exact ⟨y, rfl⟩
      · cases hfx : f x with
        | error e => rw [hfx] at hys; exact absurd hys (by simp)
        | ok y =>
          rw [hfx] at hys
          cases hrest : mapE f xs with
          | error e => rw [hrest] at hys; exact absurd hys (by simp)
          | ok zs => exact (ih.mp ⟨zs, hrest⟩) a ha
    · intro h
      rcases h x (List.mem_cons_self x xs) with ⟨y, hy⟩
      rw [hy]
      rcases ih.mpr (fun a ha => h a (List.mem_cons_of_mem x ha)) with ⟨ys, hys⟩
      rw [hys]
      exact ⟨y :: ys, rfl⟩

theorem mapE_error_mem {ε α β : Type} (f : α → Except ε β) (l : List α) (e : ε)
    (h : mapE f l = .error e) : ∃ x ∈ l, f x = .error e := by
  induction l with
  | nil => simp [mapE] at h
  | cons x xs ih =>
    simp only [mapE] at h
    cases hfx : f x with
    | error e2 =>
      rw [hfx] at h
      cases h
      exact ⟨x, List.mem_cons_self x xs, hfx⟩
    | ok y =>
      rw [hfx] at h
      cases hrest : mapE f xs with
      | error e2 =>
        rw [hrest] at h
        cases h
        rcases ih hrest with ⟨a, ha, hfa⟩
        exact ⟨a, List.mem_cons_of_mem x ha, hfa⟩
      | ok ys => rw [hrest] at h; cases h

theorem mapE_not_ok_of_mem {ε α β : Type} (f : α → Except ε β) (l : List α) (x : α)
    (hx : x ∈ l) (hfx : ∀ y, f x ≠ .ok y) : ∀ ys, mapE f l ≠ .ok ys := by
  intro ys hys
  rcases (mapE_ok_iff f l).mp ⟨ys, hys⟩ x hx with ⟨y, hy⟩
  exact hfx y hy

theorem foldE_append {ε σ α : Type} (f : σ → α → Except ε σ) (s : σ)
    (l1 l2 : List α) :
    foldE f s (l1 ++ l2) =
      match foldE f s l1 with
      | .ok s2 => foldE f s2 l2
      | .error e => .error e := by
  induction l1 generalizing s with
  | nil => simp [foldE]
  | cons x xs ih =>
    simp only [List.cons_append, foldE]
    cases f s x with
    | ok s2 => exact ih s2
    | error e => rfl

theorem foldE_error_mem {ε σ α : Type} (f : σ → α → Except ε σ) (s : σ)
    (l : List α) (e : ε) (h : foldE f s l = .error e) :
    ∃ s2 x, x ∈ l ∧ f s2 x = .error e := by
  induction l generalizing s with
  | nil => simp [foldE] at h
  | cons x xs ih =>
    simp only [foldE] at h
    cases hfx : f s x with
    | error e2 =>
      rw [hfx] at h
      cases h
      exact ⟨s, x, List.mem_cons_self x xs, hfx⟩
    | ok s2 =>
      rw [hfx] at h
      rcases ih s2 h with ⟨s3, a, ha, hfa⟩
      exact ⟨s3, a, List.mem_cons_of_mem x ha, hfa⟩

/-- When the success of each step does not depend on the accumulator, the
success of the whole fold is elementwise. -/
theorem foldE_isOk_all {ε σ α : Type} (f : σ → α → Except ε σ) (p : α → Bool)
    (hf : ∀ s x, (f s x).isOk = p x) (s : σ) (l : List α) :
    (foldE f s l).isOk = l.all p := by
  induction l generalizing s with
  | nil => simp [foldE, Except.isOk, Except.toBool]
  | cons x xs ih =>
    simp only [foldE, List.all_cons]
    cases hfx : f s x with
    | ok s2 =>
      have := hf s x
      rw [hfx] at this
      simp only [Except.isOk, Except.toBool] at this
      rw [ih s2, ← this, Bool.true_and]
    | error e =>
      have := hf s x
      rw [hfx] at this
      simp only [Except.isOk, Except.toBool] at this
      simp [Except.isOk, Except.toBool, ← this]

/-! ### C1 -/
/-- C1: the claim says every non-root row whose declared
`(parent_resource_uri, parent_label)` pair matches no row's
`(resource_uri, label)` pair is accumulated as a parent violation, and
validation fails when that list is non-empty.  The code violates this:
its validity test is inverted and compares `parent_label` against the
uri-keyed dicts, so a dangling parent reference is never recorded and the
snapshot below — whose second row points at a parent that does not exist —
validates successfully. -/
theorem validate_csv_accepts_dangling_parent :
    validate_csv_file [tissueRowA, childRowDangling] = .ok () ∧
    (∀ r ∈ [tissueRowA, childRowDangling],
      ¬(r.resource_uri = childRowDangling.parent_resource_uri ∧
        r.label = childRowDangling.parent_label)) ∧
    childRowDangling.oncotree_code ≠ TISSUE := by
  refine ⟨by decide, by decide, by decide⟩

/-! ### C2 -/
/-- C2: the claim (and the warning text the script itself prints) says a
row whose status is not "Published" is excluded from the working node map.
The code violates this: `get_oncotree` prints the warning and then inserts
the row anyway.  On a single non-Published row the resulting map still
contains the row, alongside the warning. -/
theorem get_oncotree_keeps_non_published :
    get_oncotree [draftRow] =
      ([("ONC000003", draftRow)], ["ONC000003: Breast (BREAST)"]) ∧
    draftRow.status ≠ PUBLISHED := by
  refine ⟨by decide, by decide⟩

/-! ### C10 -/
/-- C10: `get_parent_internal_id` obeys a strict precedence.  When
`parent_oncotree_code` is truthy, the result is resolved only through the
code-to-id map — the uri argument, the child id and the uri map are
irrelevant — and a code absent from that map is fatal.  When the code is
falsy and `parent_resource_uri` is empty, the call is fatal.  Otherwise the
parent id is looked up through the uri-to-id map, and the code map is
irrelevant. -/
theorem get_parent_internal_id_precedence
    (child puri : String) (pcode : Option String)
    (cmap umap : List (String × String)) :
    (pyTruthyOpt pcode = true →
      (∀ umap2 puri2 child2,
        get_parent_internal_id child2 puri2 pcode cmap umap2 =
          get_parent_internal_id child puri pcode cmap umap) ∧
      (∀ c, pcode = some c →
        get_parent_internal_id child puri pcode cmap umap =
          (match dictGet? cmap c with
           | some pid => .ok pid
           | none => .error (CErr.parentCodeNotFound c)))) ∧
    (pyTruthyOpt pcode = false → puri = "" →
      get_parent_internal_id child puri pcode cmap umap =
        .error (CErr.parentRefMissing child)) ∧
    (pyTruthyOpt pcode = false → puri ≠ "" →
      (∀ cmap2,
        get_parent_internal_id child puri pcode cmap2 umap =
          get_parent_internal_id child puri pcode cmap umap) ∧
      get_parent_internal_id child puri pcode cmap umap =
        (match dictGet? umap puri with
         | some pid => .ok pid
         | none => .error (CErr.keyErrorUri puri))) := by
  refine ⟨fun ht => ⟨fun umap2 puri2 child2 => ?_, fun c hc => ?_⟩,
    fun hf he => ?_, fun hf hne => ⟨fun cmap2 => ?_, ?_⟩⟩
  · simp only [get_parent_internal_id, ht, if_pos]
  · subst hc
    simp only [get_parent_internal_id, ht, if_pos]
  · simp only [get_parent_internal_id, hf, Bool.false_eq_true, if_false, he,
      beq_self_eq_true, if_pos]
  · have : (puri == "") = false := by
      simp [hne]
    simp only [get_parent_internal_id, hf, Bool.false_eq_true, if_false, this]
  · have : (puri == "") = false := by
      simp [hne]
    simp only [get_parent_internal_id, hf, Bool.false_eq_true, if_false, this]

/-- Witness for C10: a concrete call with a truthy parent code resolves
through the code map even though the uri map would give a different id. -/
theorem get_parent_internal_id_precedence_witness :
    pyTruthyOpt (some "LUNG") = true ∧
    get_parent_internal_id ("c1") ("http://u") (some "LUNG")
      [("LUNG", "id1")] [("http://u", "id2")] = .ok "id1" := by
  constructor
  · decide
  · have h := ((get_parent_internal_id_precedence ("c1") ("http://u")
      (some "LUNG") [("LUNG", "id1")] [("http://u", "id2")]).1
      (by decide)).2 "LUNG" rfl
    rw [h]
    decide

/-! ### Generic Except and dict lemmas -/
theorem except_error_iff_not_ok {ε α : Type} (x : Except ε α) :
    (∃ e, x = .error e) ↔ ¬(∃ a, x = .ok a) := by
  cases x <;> simp

theorem dictGetRow_ok_iff (d : List (String × Row)) (k : String) :
    (∃ q, dictGetRow d k = .ok q) ↔ dictContains d k = true := by
  simp only [dictGetRow, dictContains]
  cases h : d.find? (fun p => p.1 == k) with
  | none =>
    simp only [List.find?_eq_none] at h
    simp only [List.any_eq_true]
    constructor
    · rintro ⟨q, hq⟩; exact Except.noConfusion hq
    · rintro ⟨p, hp, hpk⟩; exact absurd hpk (by simpa using h p hp)
  | some p =>
    have hmem := List.mem_of_find?_eq_some h
    have hpk := List.find?_some h
    simp only [List.any_eq_true]
    exact ⟨fun _ => ⟨p, hmem, hpk⟩, fun _ => ⟨p.2, rfl⟩⟩

theorem dictGetRow_error_contains (d : List (String × Row)) (k : String) (e : CErr)
    (h : dictGetRow d k = .error e) : dictContains d k = false ∧ e = CErr.keyErrorNode k := by
  simp only [dictGetRow] at h
  cases hf : d.find? (fun p => p.1 == k) with
  | none =>
    rw [hf] at h
    refine ⟨?_, by cases h; rfl⟩
    simp only [List.find?_eq_none] at hf
    simp only [dictContains, List.any_eq_false]
    intro p hp
    simpa using hf p hp
  | some p => rw [hf] at h; exact Except.noConfusion h

/-! ### C4: lineage validation -/
theorem precursorKeyStep_error_cases (modT : List (String × Row))
    (pIdx : List (String × List String)) (modSet : List String)
    (codes : List (String × String)) (pid : String) (e : CErr)
    (h : precursorKeyStep modT pIdx modSet codes pid = .error e) :
    (modSet.contains pid = true ∧ e = CErr.precursorStillCurrent pid) ∨
    (∃ iid ∈ multiDictGet pIdx pid, dictContains modT iid = false ∧
      e = CErr.keyErrorNode iid) := by
  simp only [precursorKeyStep] at h
  by_cases hlive : modSet.contains pid = true
  · rw [if_pos hlive] at h
    cases h
    exact Or.inl ⟨hlive, rfl⟩
  · rw [if_neg (by simpa using hlive)] at h
    right
    rcases mapE_error_mem _ _ _ h with ⟨iid, hmem, hstep⟩
    cases hget : dictGetRow modT iid with
    | error e2 =>
      rw [hget] at hstep
      cases hstep
      obtain ⟨hc, rfl⟩ := dictGetRow_error_contains modT iid _ hget
      exact ⟨iid, hmem, hc, rfl⟩
    | ok data => rw [hget] at hstep; exact Except.noConfusion hstep

theorem precursorKeyStep_ok_exists (modT : List (String × Row))
    (pIdx : List (String × List String)) (modSet : List String)
    (codes : List (String × String)) (pid : String)
    (hlive : modSet.contains pid = false)
    (hvals : ∀ iid ∈ multiDictGet pIdx pid, dictContains modT iid = true) :
    ∃ ls, precursorKeyStep modT pIdx modSet codes pid = .ok ls := by
  simp only [precursorKeyStep, hlive]
  rw [if_neg (by simp)]
  apply (mapE_ok_iff _ _).mpr
  intro iid hiid
  rcases (dictGetRow_ok_iff modT iid).mpr (hvals iid hiid) with ⟨q, hq⟩
  exact ⟨_, by rw [hq]; rfl⟩

theorem precursorKeyStep_ok_not_live (modT : List (String × Row))
    (pIdx : List (String × List String)) (modSet : List String)
    (codes : List (String × String)) (pid : String) (ls : List String)
    (h : precursorKeyStep modT pIdx modSet codes pid = .ok ls) :
    modSet.contains pid = false := by
  cases hlive : modSet.contains pid with
  | false => rfl
  | true =>
    simp only [precursorKeyStep, hlive] at h
    exact Except.noConfusion h

theorem revocationKeyStep_error_cases (modT : List (String × Row))
    (rIdx pIdx : List (String × List String)) (modSet newIds : List String)
    (codes : List (String × String)) (rid : String) (e : CErr)
    (h : revocationKeyStep modT rIdx pIdx modSet newIds codes rid = .error e) :
    (modSet.contains rid = true ∧ e = CErr.revocationStillCurrent rid) ∨
    ((dictKeys pIdx).contains rid = true ∧ e = CErr.revocationIsPrecursor rid) ∨
    (∃ iid ∈ multiDictGet rIdx rid, newIds.contains iid = true ∧
      e = CErr.revokesNewConcept rid iid) ∨
    (∃ iid ∈ multiDictGet rIdx rid, dictContains modT iid = false ∧
      e = CErr.keyErrorNode iid) := by
  simp only [revocationKeyStep] at h
  by_cases hlive : modSet.contains rid = true
  · rw [if_pos hlive] at h
    cases h
    exact Or.inl ⟨hlive, rfl⟩
  · rw [if_neg (by simpa using hlive)] at h
    by_cases hprec : (dictKeys pIdx).contains rid = true
    · rw [if_pos hprec] at h
      cases h
      exact Or.inr (Or.inl ⟨hprec, rfl⟩)
    · rw [if_neg (by simpa using hprec)] at h
      rcases mapE_error_mem _ _ _ h with ⟨iid, hmem, hstep⟩
      by_cases hnew : newIds.contains iid = true
      · rw [if_pos hnew] at hstep
        cases hstep
        exact Or.inr (Or.inr (Or.inl ⟨iid, hmem, hnew, rfl⟩))
      · rw [if_neg (by simpa using hnew)] at hstep
        cases hget : dictGetRow modT iid with
        | error e2 =>
          rw [hget] at hstep
          cases hstep
          obtain ⟨hc, rfl⟩ := dictGetRow_error_contains modT iid _ hget
          exact Or.inr (Or.inr (Or.inr ⟨iid, hmem, hc, rfl⟩))
        | ok data => rw [hget] at hstep; exact Except.noConfusion hstep

theorem revocationKeyStep_ok_exists (modT : List (String × Row))
    (rIdx pIdx : List (String × List String)) (modSet newIds : List String)
    (codes : List (String × String)) (rid : String)
    (hlive : modSet.contains rid = false)
    (hprec : (dictKeys pIdx).contains rid = false)
    (hnew : ∀ iid ∈ multiDictGet rIdx rid, newIds.contains iid = false)
    (hvals : ∀ iid ∈ multiDictGet rIdx rid, dictContains modT iid = true) :
    ∃ ls, revocationKeyStep modT rIdx pIdx modSet newIds codes rid = .ok ls := by
  simp only [revocationKeyStep, hlive, hprec]
  rw [if_neg (by simp), if_neg (by simp)]
  apply (mapE_ok_iff _ _).mpr
  intro iid hiid
  rw [if_neg (by simpa using hnew iid hiid)]
  rcases (dictGetRow_ok_iff modT iid).mpr (hvals iid hiid) with ⟨q, hq⟩
  exact ⟨_, by rw [hq]; rfl⟩

theorem revocationKeyStep_ok_checks (modT : List (String × Row))
    (rIdx pIdx : List (String × List String)) (modSet newIds : List String)
    (codes : List (String × String)) (rid : String) (ls : List String)
    (h : revocationKeyStep modT rIdx pIdx modSet newIds codes rid = .ok ls) :
    modSet.contains rid = false ∧ (dictKeys pIdx).contains rid = false ∧
    ∀ iid ∈ multiDictGet rIdx rid, newIds.contains iid = false := by
  simp only [revocationKeyStep] at h
  by_cases hlive : modSet.contains rid = true
  · rw [if_pos hlive] at h; exact Except.noConfusion h
  · rw [if_neg (by simpa using hlive)] at h
    by_cases hprec : (dictKeys pIdx).contains rid = true
    · rw [if_pos hprec] at h; exact Except.noConfusion h
    · rw [if_neg (by simpa using hprec)] at h
      refine ⟨by simpa using hlive, by simpa using hprec, ?_⟩
      intro iid hiid
      rcases (mapE_ok_iff _ _).mp ⟨ls, h⟩ iid hiid with ⟨y, hy⟩
      by_contra hc
      rw [if_pos (by simpa using hc)] at hy
      exact Except.noConfusion hy

theorem except_bind_ok {ε α β : Type} (a : α) (f : α → Except ε β) :
    (Except.ok a >>= f) = f a := rfl

theorem except_bind_error {ε α β : Type} (e : ε) (f : α → Except ε β) :
    (Except.error e >>= f : Except ε β) = .error e := rfl

theorem lineage_validation_ok_iff (modT : List (String × Row))
    (pIdx rIdx : List (String × List String)) (modSet newIds : List String)
    (codes : List (String × String))
    (hp : ∀ k ∈ dictKeys pIdx, ∀ iid ∈ multiDictGet pIdx k, dictContains modT iid = true)
    (hr : ∀ k ∈ dictKeys rIdx, ∀ iid ∈ multiDictGet rIdx k, dictContains modT iid = true) :
    (∃ res, lineage_validation modT pIdx rIdx modSet newIds codes = .ok res) ↔
      ((∀ k ∈ dictKeys pIdx, modSet.contains k = false) ∧
       (∀ k ∈ dictKeys rIdx, modSet.contains k = false ∧
         (dictKeys pIdx).contains k = false ∧
         ∀ iid ∈ multiDictGet rIdx k, newIds.contains iid = false)) := by
  constructor
  · rintro ⟨res, hres⟩
    simp only [lineage_validation] at hres
    cases hps : precursorStage modT pIdx modSet codes with
    | error e => rw [hps, except_bind_error] at hres; exact Except.noConfusion hres
    | ok pl =>
      rw [hps, except_bind_ok] at hres
      cases hvs : revocationStage modT rIdx pIdx modSet newIds codes with
      | error e => rw [hvs, except_bind_error] at hres; exact Except.noConfusion hres
      | ok vl =>
        constructor
        · intro k hk
          simp only [precursorStage] at hps
          cases hmap : mapE (precursorKeyStep modT pIdx modSet codes)
              (sortedIds (dictKeys pIdx)) with
          | error e => rw [hmap, except_bind_error] at hps; exact Except.noConfusion hps
          | ok chunks =>
            rcases (mapE_ok_iff _ _).mp ⟨chunks, hmap⟩ k
              ((mem_sortedIds k _).mpr hk) with ⟨ls, hls⟩
            exact precursorKeyStep_ok_not_live modT pIdx modSet codes k ls hls
        · intro k hk
          simp only [revocationStage] at hvs
          cases hmap : mapE (revocationKeyStep modT rIdx pIdx modSet newIds codes)
              (sortedIds (dictKeys rIdx)) with
          | error e => rw [hmap, except_bind_error] at hvs; exact Except.noConfusion hvs
          | ok chunks =>
            rcases (mapE_ok_iff _ _).mp ⟨chunks, hmap⟩ k
              ((mem_sortedIds k _).mpr hk) with ⟨ls, hls⟩
            exact revocationKeyStep_ok_checks modT rIdx pIdx modSet newIds codes k ls hls
  · rintro ⟨hA, hB⟩
    have hpok : ∃ pl, precursorStage modT pIdx modSet codes = .ok pl := by
      simp only [precursorStage]
      have : ∃ chunks, mapE (precursorKeyStep modT pIdx modSet codes)
          (sortedIds (dictKeys pIdx)) = .ok chunks := by
        apply (mapE_ok_iff _ _).mpr
        intro k hk
        have hk2 := (mem_sortedIds k _).mp hk
        exact precursorKeyStep_ok_exists modT pIdx modSet codes k (hA k hk2) (hp k hk2)
      rcases this with ⟨chunks, hchunks⟩
      exact ⟨chunks.flatten, by rw [hchunks, except_bind_ok]; rfl⟩
    have hrok : ∃ vl, revocationStage modT rIdx pIdx modSet newIds codes = .ok vl := by
      simp only [revocationStage]
      have : ∃ chunks, mapE (revocationKeyStep modT rIdx pIdx modSet newIds codes)
          (sortedIds (dictKeys rIdx)) = .ok chunks := by
        apply (mapE_ok_iff _ _).mpr
        intro k hk
        have hk2 := (mem_sortedIds k _).mp hk
        exact revocationKeyStep_ok_exists modT rIdx pIdx modSet newIds codes k
          (hB k hk2).1 (hB k hk2).2.1 (hB k hk2).2.2 (hr k hk2)
      rcases this with ⟨chunks, hchunks⟩
      exact ⟨chunks.flatten, by rw [hchunks, except_bind_ok]; rfl⟩
    rcases hpok with ⟨pl, hpl⟩
    rcases hrok with ⟨vl, hvl⟩
    refine ⟨(pl, vl), ?_⟩
    simp only [lineage_validation]
    rw [hpl, except_bind_ok, hvl, except_bind_ok]
    rfl

/-- C4: lineage validation fails exactly when a precursor-index key is a
currently-live modified id, or a revocation-index key is a currently-live
modified id, or a revocation-index key is also a precursor-index key, or
some id in a revocation value set is brand new.  A revocation target that
is retained is never tested against anything but the new-id set, so it
never fails.  The side conditions `hp`/`hr` state that every id declaring a
precursor or revocation is itself a row of the modified snapshot, which
holds by construction for indices built from that snapshot. -/
theorem lineage_validation_error_iff (modT : List (String × Row))
    (pIdx rIdx : List (String × List String)) (modSet newIds : List String)
    (codes : List (String × String))
    (hp : ∀ k ∈ dictKeys pIdx, ∀ iid ∈ multiDictGet pIdx k, dictContains modT iid = true)
    (hr : ∀ k ∈ dictKeys rIdx, ∀ iid ∈ multiDictGet rIdx k, dictContains modT iid = true) :
    (∃ e, lineage_validation modT pIdx rIdx modSet newIds codes = .error e) ↔
      ((∃ k ∈ dictKeys pIdx, modSet.contains k = true) ∨
       (∃ k ∈ dictKeys rIdx, modSet.contains k = true) ∨
       (∃ k ∈ dictKeys rIdx, (dictKeys pIdx).contains k = true) ∨
       (∃ k ∈ dictKeys rIdx, ∃ iid ∈ multiDictGet rIdx k,
         newIds.contains iid = true)) := by
  rw [except_error_iff_not_ok,
    lineage_validation_ok_iff modT pIdx rIdx modSet newIds codes hp hr]
  constructor
  · intro h
    rcases not_and_or.mp h with h | h
    · push_neg at h
      rcases h with ⟨k, hk, hck⟩
      exact Or.inl ⟨k, hk, by simpa using hck⟩
    · push_neg at h
      rcases h with ⟨k, hk, hck⟩
      by_cases h1 : modSet.contains k = true
      · exact Or.inr (Or.inl ⟨k, hk, h1⟩)
      · by_cases h2 : (dictKeys pIdx).contains k = true
        · exact Or.inr (Or.inr (Or.inl ⟨k, hk, h2⟩))
        · rcases hck (by simpa using h1) (by simpa using h2) with ⟨iid, hiid, hnew⟩
          exact Or.inr (Or.inr (Or.inr ⟨k, hk, iid, hiid, by simpa using hnew⟩))
  · rintro (⟨k, hk, hck⟩ | ⟨k, hk, hck⟩ | ⟨k, hk, hck⟩ | ⟨k, hk, iid, hiid, hnew⟩) ⟨hA, hB⟩
    · rw [hA k hk] at hck; exact Bool.noConfusion hck
    · rw [(hB k hk).1] at hck; exact Bool.noConfusion hck
    · rw [(hB k hk).2.1] at hck; exact Bool.noConfusion hck
    · rw [(hB k hk).2.2 iid hiid] at hnew; exact Bool.noConfusion hnew

/-- Witness for C4: a modified snapshot whose one row revokes "ONC000999",
while that row itself is brand new, makes lineage validation fail through
the revokes-new-concept rule. -/
theorem lineage_validation_error_iff_witness :
    (∀ k ∈ dictKeys rIdxLineage, ∀ iid ∈ multiDictGet rIdxLineage k,
      dictContains modTreeLineage iid = true) ∧
    (∃ e, lineage_validation modTreeLineage pIdxLineage rIdxLineage
      (dictKeys modTreeLineage) ["ONC000010"] [] = .error e) := by
  refine ⟨by decide, ?_⟩
  refine (lineage_validation_error_iff modTreeLineage pIdxLineage rIdxLineage
    (dictKeys modTreeLineage) ["ONC000010"] [] (by decide) (by decide)).mpr ?_
  exact Or.inr (Or.inr (Or.inr ⟨"ONC000999", by decide, "ONC000010", by decide, by decide⟩))

/-! ### C3: resource-uri rules of `confirm_changes` -/
theorem dictContains_iff_mem_keys {α : Type} (d : List (String × α)) (k : String) :
    dictContains d k = true ↔ k ∈ dictKeys d := by
  simp only [dictContains, dictKeys, List.any_eq_true, List.mem_map]
  constructor
  · rintro ⟨p, hp, hpk⟩
    exact ⟨p, hp, by simpa using hpk⟩
  · rintro ⟨p, hp, hpk⟩
    exact ⟨p, hp, by simpa using hpk⟩

theorem list_contains_iff_mem (l : List String) (a : String) :
    l.contains a = true ↔ a ∈ l :=
  ⟨fun h => List.mem_of_elem_eq_true h, fun h => List.elem_eq_true_of_mem h⟩

theorem mem_in_both_of_contains (orig modT : List (String × Row)) (id : String)
    (ho : dictContains orig id = true) (hm : dictContains modT id = true) :
    id ∈ in_both_internal_ids orig modT := by
  simp only [in_both_internal_ids, List.mem_filter]
  exact ⟨(dictContains_iff_mem_keys orig id).mp ho,
    (list_contains_iff_mem _ _).mpr ((dictContains_iff_mem_keys modT id).mp hm)⟩

theorem mem_new_of_contains (orig modT : List (String × Row)) (id : String)
    (ho : dictContains orig id = false) (hm : dictContains modT id = true) :
    id ∈ new_internal_ids orig modT := by
  simp only [new_internal_ids, List.mem_filter]
  refine ⟨(dictContains_iff_mem_keys modT id).mp hm, ?_⟩
  cases hc : (dictKeys orig).contains id with
  | false => rfl
  | true =>
    exfalso
    have hmem := (list_contains_iff_mem _ _).mp hc
    rw [(dictContains_iff_mem_keys orig id).mpr hmem] at ho
    exact Bool.noConfusion ho

theorem get_parent_internal_id_error_shape (c u : String) (pc : Option String)
    (cm um : List (String × String)) (e : CErr)
    (h : get_parent_internal_id c u pc cm um = .error e) :
    (∃ x, e = CErr.parentCodeNotFound x) ∨ (∃ x, e = CErr.parentRefMissing x) ∨
    (∃ x, e = CErr.keyErrorUri x) := by
  unfold get_parent_internal_id at h
  split at h
  · split at h
    · exact Except.noConfusion h
    · cases h; exact Or.inl ⟨_, rfl⟩
  · split at h
    · cases h; exact Or.inr (Or.inl ⟨c, rfl⟩)
    · split at h
      · exact Except.noConfusion h
      · cases h; exact Or.inr (Or.inr ⟨u, rfl⟩)

theorem removedLineStep_error_shape (orig : List (String × Row)) (id : String)
    (e : CErr) (h : removedLineStep orig id = .error e) :
    isResourceUriErr e = false := by
  simp only [removedLineStep] at h
  cases hg : dictGetRow orig id with
  | error e2 =>
    rw [hg, except_bind_error] at h
    cases h
    obtain ⟨_, rfl⟩ := dictGetRow_error_contains orig id e hg
    rfl
  | ok data =>
    rw [hg, except_bind_ok] at h
    exact Except.noConfusion h

theorem newNodeStep_error_resource (modT : List (String × Row))
    (codes muris : List (String × String)) (id : String) (e : CErr)
    (h : newNodeStep modT codes muris id = .error e)
    (hres : isResourceUriErr e = true) :
    ∃ rm, dictGetRow modT id = .ok rm ∧ rm.resource_uri ≠ "" ∧
      e = CErr.newNodeHasResourceUri id := by
  simp only [newNodeStep] at h
  cases hg : dictGetRow modT id with
  | error e2 =>
    rw [hg, except_bind_error] at h
    cases h
    obtain ⟨_, rfl⟩ := dictGetRow_error_contains modT id e hg
    exact absurd hres (by simp [isResourceUriErr])
  | ok data =>
    rw [hg, except_bind_ok] at h
    by_cases hru : data.resource_uri != ""
    · rw [if_pos hru] at h
      cases h
      exact ⟨data, rfl, by simpa using hru, rfl⟩
    · rw [if_neg hru] at h
      exfalso
      cases hp : get_parent_internal_id id data.parent_resource_uri
          data.parent_oncotree_code codes muris with
      | error e3 =>
        rw [hp, except_bind_error] at h
        cases h
        rcases get_parent_internal_id_error_shape _ _ _ _ _ _ hp with
          ⟨x, rfl⟩ | ⟨x, rfl⟩ | ⟨x, rfl⟩ <;> simp [isResourceUriErr] at hres
      | ok pid =>
        rw [hp, except_bind_ok] at h
        cases hg2 : dictGetRow modT pid with
        | error e4 =>
          rw [hg2, except_bind_error] at h
          cases h
          obtain ⟨_, rfl⟩ := dictGetRow_error_contains modT pid _ hg2
          simp [isResourceUriErr] at hres
        | ok pdata =>
          rw [hg2, except_bind_ok] at h
          exact Except.noConfusion h

theorem newNodeStep_error_of_uri (modT : List (String × Row))
    (codes muris : List (String × String)) (id : String) (rm : Row)
    (hg : dictGetRow modT id = .ok rm) (hru : rm.resource_uri ≠ "") :
    newNodeStep modT codes muris id = .error (CErr.newNodeHasResourceUri id) := by
  simp only [newNodeStep]
  rw [hg, except_bind_ok, if_pos (by simpa using hru)]

theorem precursorStage_error_shape (modT : List (String × Row))
    (pIdx : List (String × List String)) (modSet : List String)
    (idc : List (String × String)) (e : CErr)
    (h : precursorStage modT pIdx modSet idc = .error e) :
    isResourceUriErr e = false := by
  simp only [precursorStage] at h
  cases hmap : mapE (precursorKeyStep modT pIdx modSet idc)
      (sortedIds (dictKeys pIdx)) with
  | error e2 =>
    rw [hmap, except_bind_error] at h
    cases h
    rcases mapE_error_mem _ _ _ hmap with ⟨k, _, hk⟩
    rcases precursorKeyStep_error_cases modT pIdx modSet idc k e hk with
      ⟨_, rfl⟩ | ⟨_, _, _, rfl⟩ <;> rfl
  | ok chunks =>
    rw [hmap, except_bind_ok] at h
    exact Except.noConfusion h

theorem revocationStage_error_shape (modT : List (String × Row))
    (rIdx pIdx : List (String × List String)) (modSet newIds : List String)
    (idc : List (String × String)) (e : CErr)
    (h : revocationStage modT rIdx pIdx modSet newIds idc = .error e) :
    isResourceUriErr e = false := by
  simp only [revocationStage] at h
  cases hmap : mapE (revocationKeyStep modT rIdx pIdx modSet newIds idc)
      (sortedIds (dictKeys rIdx)) with
  | error e2 =>
    rw [hmap, except_bind_error] at h
    cases h
    rcases mapE_error_mem _ _ _ hmap with ⟨k, _, hk⟩
    rcases revocationKeyStep_error_cases modT rIdx pIdx modSet newIds idc k e hk with
      ⟨_, rfl⟩ | ⟨_, rfl⟩ | ⟨_, _, _, rfl⟩ | ⟨_, _, _, rfl⟩ <;> rfl
  | ok chunks =>
    rw [hmap, except_bind_ok] at h
    exact Except.noConfusion h

theorem candidatePairStep_error_shape (orig modT : List (String × Row))
    (p : String × String) (e : CErr)
    (h : candidatePairStep orig modT p = .error e) :
    isResourceUriErr e = false := by
  simp only [candidatePairStep] at h
  cases hg : dictGetRow orig p.1 with
  | error e2 =>
    rw [hg, except_bind_error] at h
    cases h
    obtain ⟨_, rfl⟩ := dictGetRow_error_contains orig p.1 e hg
    rfl
  | ok od =>
    rw [hg, except_bind_ok] at h
    cases hg2 : dictGetRow modT p.2 with
    | error e3 =>
      rw [hg2, except_bind_error] at h
      cases h
      obtain ⟨_, rfl⟩ := dictGetRow_error_contains modT p.2 e hg2
      rfl
    | ok md =>
      rw [hg2, except_bind_ok] at h
      by_cases hc : candidate_diff_is_empty od md = true
      · rw [if_pos hc] at h; exact Except.noConfusion h
      · rw [if_neg hc] at h; exact Except.noConfusion h

theorem candidateStage_error_shape (orig modT : List (String × Row))
    (po : List (String × String)) (e : CErr)
    (h : candidateStage orig modT po = .error e) :
    isResourceUriErr e = false := by
  simp only [candidateStage] at h
  cases hmap : mapE (candidatePairStep orig modT) po with
  | error e2 =>
    rw [hmap, except_bind_error] at h
    cases h
    rcases mapE_error_mem _ _ _ hmap with ⟨p, _, hp⟩
    exact candidatePairStep_error_shape orig modT p e hp
  | ok outs =>
    rw [hmap, except_bind_ok] at h
    exact Except.noConfusion h

theorem except_pure_bind {ε α β : Type} (a : α) (f : α → Except ε β) :
    ((pure a : Except ε α) >>= f) = f a := rfl

theorem dictGetRow_ok_contains (d : List (String × Row)) (k : String) (q : Row)
    (h : dictGetRow d k = .ok q) : dictContains d k = true :=
  (dictGetRow_ok_iff d k).mp ⟨q, h⟩

theorem retainedStep_error_of_uri (orig modT : List (String × Row))
    (codes ouris muris : List (String × String)) (id : String) (ro rm : Row)
    (hgo : dictGetRow orig id = .ok ro) (hgm : dictGetRow modT id = .ok rm)
    (hbad : stripIsEmpty ro.resource_uri = true ∨ ro.resource_uri ≠ rm.resource_uri) :
    ∃ e, retainedStep orig modT codes ouris muris id = .error e ∧
      isResourceUriErr e = true := by
  simp only [retainedStep]
  rw [hgo, except_bind_ok, hgm, except_bind_ok]
  by_cases hstrip : stripIsEmpty ro.resource_uri = true
  · rw [if_pos hstrip]
    exact ⟨CErr.resourceUriMissing id, rfl, rfl⟩
  · rcases hbad with hb | hb
    · exact absurd hb hstrip
    · rw [if_neg hstrip, if_pos (by simpa using hb)]
      exact ⟨CErr.resourceUriChanged id, rfl, rfl⟩

theorem modifiedParentCode_error_shape (codes muris : List (String × String))
    (id : String) (rm : Row) (e : CErr)
    (h : modifiedParentCode codes muris id rm = .error e) :
    isResourceUriErr e = false := by
  simp only [modifiedParentCode] at h
  cases hpoc : rm.parent_oncotree_code with
  | none =>
    simp only [hpoc, except_bind_error] at h
    cases h
    rfl
  | some cv =>
    simp only [hpoc, except_bind_ok] at h
    by_cases hcv : (cv != "") = true
    · rw [if_pos hcv, show (pure cv : Except CErr String) = .ok cv from rfl] at h
      exact Except.noConfusion h
    · rw [if_neg hcv] at h
      cases hgpm : get_parent_internal_id id rm.parent_resource_uri (some cv)
          codes muris with
      | error ep =>
        rw [hgpm, except_bind_error] at h
        cases h
        rcases get_parent_internal_id_error_shape _ _ _ _ _ _ hgpm with
          ⟨x, rfl⟩ | ⟨x, rfl⟩ | ⟨x, rfl⟩ <;> rfl
      | ok mpid =>
        rw [hgpm, except_bind_ok] at h
        simp only [get_oncotree_code_from_internal_id] at h
        cases hfind : codes.find? (fun p => p.2 == mpid) with
        | some p => rw [hfind] at h; exact Except.noConfusion h
        | none => rw [hfind] at h; cases h; rfl

theorem originalParentCode_error_shape (codes ouris : List (String × String))
    (id : String) (ro : Row) (e : CErr)
    (h : originalParentCode codes ouris id ro = .error e) :
    isResourceUriErr e = false := by
  simp only [originalParentCode] at h
  cases hgpo : get_parent_internal_id id ro.parent_resource_uri none codes ouris with
  | error ep =>
    rw [hgpo, except_bind_error] at h
    cases h
    rcases get_parent_internal_id_error_shape _ _ _ _ _ _ hgpo with
      ⟨x, rfl⟩ | ⟨x, rfl⟩ | ⟨x, rfl⟩ <;> rfl
  | ok opid =>
    rw [hgpo, except_bind_ok] at h
    simp only [get_oncotree_code_from_internal_id] at h
    cases hfind : codes.find? (fun p => p.2 == opid) with
    | some p => rw [hfind] at h; exact Except.noConfusion h
    | none => rw [hfind] at h; cases h; rfl

theorem retainedStep_resource_error (orig modT : List (String × Row))
    (codes ouris muris : List (String × String)) (id : String) (e : CErr)
    (h : retainedStep orig modT codes ouris muris id = .error e)
    (hres : isResourceUriErr e = true) :
    ∃ ro rm, dictGetRow orig id = .ok ro ∧ dictGetRow modT id = .ok rm ∧
      (stripIsEmpty ro.resource_uri = true ∨ ro.resource_uri ≠ rm.resource_uri) := by
  simp only [retainedStep] at h
  cases hgo : dictGetRow orig id with
  | error eo =>
    rw [hgo, except_bind_error] at h
    cases h
    obtain ⟨_, rfl⟩ := dictGetRow_error_contains _ _ _ hgo
    exact absurd hres (by simp [isResourceUriErr])
  | ok ro =>
    rw [hgo, except_bind_ok] at h
    cases hgm : dictGetRow modT id with
    | error em =>
      rw [hgm, except_bind_error] at h
      cases h
      obtain ⟨_, rfl⟩ := dictGetRow_error_contains _ _ _ hgm
      exact absurd hres (by simp [isResourceUriErr])
    | ok rm =>
      rw [hgm, except_bind_ok] at h
      by_cases hstrip : stripIsEmpty ro.resource_uri = true
      · exact ⟨ro, rm, rfl, rfl, Or.inl hstrip⟩
      · rw [if_neg hstrip] at h
        by_cases hne : (ro.resource_uri != rm.resource_uri) = true
        · exact ⟨ro, rm, rfl, rfl, Or.inr (by simpa using hne)⟩
        · rw [if_neg hne] at h
          exfalso
          by_cases hid : (id == TISSUE_INTERNAL_ID) = true
          · rw [if_pos hid] at h
            exact Except.noConfusion h
          · rw [if_neg hid] at h
            cases hmc : modifiedParentCode codes muris id rm with
            | error em2 =>
              rw [hmc, except_bind_error] at h
              cases h
              rw [modifiedParentCode_error_shape codes muris id rm _ hmc] at hres
              exact Bool.noConfusion hres
            | ok mcode =>
              rw [hmc, except_bind_ok] at h
              cases hoc : originalParentCode codes ouris id ro with
              | error eo2 =>
                rw [hoc, except_bind_error] at h
                cases h
                rw [originalParentCode_error_shape codes ouris id ro _ hoc] at hres
                exact Bool.noConfusion hres
              | ok ocode =>
                rw [hoc, except_bind_ok] at h
                exact Except.noConfusion h

theorem confirm_changes_error_elim (orig modT : List (String × Row))
    (pIdx rIdx : List (String × List String))
    (ouris muris idc codes : List (String × String))
    (po : List (String × String)) (ibo : List String) (e : CErr)
    (h : confirm_changes orig modT pIdx rIdx ouris muris idc codes po ibo = .error e) :
    removedStage orig modT = .error e ∨
    newStage modT codes muris (new_internal_ids orig modT) = .error e ∨
    precursorStage modT pIdx (dictKeys modT) idc = .error e ∨
    revocationStage modT rIdx pIdx (dictKeys modT) (new_internal_ids orig modT)
      idc = .error e ∨
    candidateStage orig modT po = .error e ∨
    retainedStage orig modT codes ouris muris ibo = .error e := by
  simp only [confirm_changes] at h
  cases h1 : removedStage orig modT with
  | error e1 => rw [h1, except_bind_error] at h; cases h; exact Or.inl rfl
  | ok a =>
    rw [h1, except_bind_ok] at h
    cases h2 : newStage modT codes muris (new_internal_ids orig modT) with
    | error e2 => rw [h2, except_bind_error] at h; cases h; exact Or.inr (Or.inl rfl)
    | ok b =>
      rw [h2, except_bind_ok] at h
      cases h3 : precursorStage modT pIdx (dictKeys modT) idc with
      | error e3 =>
        rw [h3, except_bind_error] at h; cases h
        exact Or.inr (Or.inr (Or.inl rfl))
      | ok c =>
        rw [h3, except_bind_ok] at h
        cases h4 : revocationStage modT rIdx pIdx (dictKeys modT)
            (new_internal_ids orig modT) idc with
        | error e4 =>
          rw [h4, except_bind_error] at h; cases h
          exact Or.inr (Or.inr (Or.inr (Or.inl rfl)))
        | ok d =>
          rw [h4, except_bind_ok] at h
          cases h5 : candidateStage orig modT po with
          | error e5 =>
            rw [h5, except_bind_error] at h; cases h
            exact Or.inr (Or.inr (Or.inr (Or.inr (Or.inl rfl))))
          | ok f =>
            rw [h5, except_bind_ok] at h
            cases h6 : retainedStage orig modT codes ouris muris ibo with
            | error e6 =>
              rw [h6, except_bind_error] at h; cases h
              exact Or.inr (Or.inr (Or.inr (Or.inr (Or.inr rfl))))
            | ok g =>
              rw [h6, except_bind_ok] at h
              exact Except.noConfusion h

theorem confirm_changes_ok_elim (orig modT : List (String × Row))
    (pIdx rIdx : List (String × List String))
    (ouris muris idc codes : List (String × String))
    (po : List (String × String)) (ibo : List String) (r : Report)
    (h : confirm_changes orig modT pIdx rIdx ouris muris idc codes po ibo = .ok r) :
    (∃ a, removedStage orig modT = .ok a) ∧
    (∃ b, newStage modT codes muris (new_internal_ids orig modT) = .ok b) ∧
    (∃ c, precursorStage modT pIdx (dictKeys modT) idc = .ok c) ∧
    (∃ d, revocationStage modT rIdx pIdx (dictKeys modT)
      (new_internal_ids orig modT) idc = .ok d) ∧
    (∃ f, candidateStage orig modT po = .ok f) ∧
    (∃ g, retainedStage orig modT codes ouris muris ibo = .ok g) := by
  simp only [confirm_changes] at h
  cases h1 : removedStage orig modT with
  | error e1 => rw [h1, except_bind_error] at h; exact Except.noConfusion h
  | ok a =>
    rw [h1, except_bind_ok] at h
    cases h2 : newStage modT codes muris (new_internal_ids orig modT) with
    | error e2 => rw [h2, except_bind_error] at h; exact Except.noConfusion h
    | ok b =>
      rw [h2, except_bind_ok] at h
      cases h3 : precursorStage modT pIdx (dictKeys modT) idc with
      | error e3 => rw [h3, except_bind_error] at h; exact Except.noConfusion h
      | ok c =>
        rw [h3, except_bind_ok] at h
        cases h4 : revocationStage modT rIdx pIdx (dictKeys modT)
            (new_internal_ids orig modT) idc with
        | error e4 => rw [h4, except_bind_error] at h; exact Except.noConfusion h
        | ok d =>
          rw [h4, except_bind_ok] at h
          cases h5 : candidateStage orig modT po with
          | error e5 => rw [h5, except_bind_error] at h; exact Except.noConfusion h
          | ok f =>
            rw [h5, except_bind_ok] at h
            cases h6 : retainedStage orig modT codes ouris muris ibo with
            | error e6 => rw [h6, except_bind_error] at h; exact Except.noConfusion h
            | ok g =>
              exact ⟨⟨a, rfl⟩, ⟨b, rfl⟩, ⟨c, rfl⟩, ⟨d, rfl⟩, ⟨f, rfl⟩, ⟨g, rfl⟩⟩

theorem retainedStage_ok_mapE (orig modT : List (String × Row))
    (codes ouris muris : List (String × String)) (ibo : List String)
    (g : List String × List String)
    (h : retainedStage orig modT codes ouris muris ibo = .ok g) :
    ∃ outs, mapE (retainedStep orig modT codes ouris muris) ibo = .ok outs := by
  simp only [retainedStage] at h
  cases hmap : mapE (retainedStep orig modT codes ouris muris) ibo with
  | error e => rw [hmap, except_bind_error] at h; exact Except.noConfusion h
  | ok outs => exact ⟨outs, rfl⟩

/-- C3: the run fails whenever a retained id has a blank original resource
uri (blank in the sense of the script's `strip()` test) or a resource uri
that differs between the snapshots, and whenever a new id has a non-empty
resource uri; conversely, every error raised on resource-uri grounds comes
from one of those situations, so absent them the run never fails on
resource-uri grounds.  `ibo` is the enumeration of the Python set of
retained ids, so it covers `in_both_internal_ids`. -/
theorem confirm_changes_resource_uri_rules (orig modT : List (String × Row))
    (pIdx rIdx : List (String × List String))
    (ouris muris idc codes : List (String × String))
    (po : List (String × String)) (ibo : List String)
    (hibo : ∀ id ∈ in_both_internal_ids orig modT, id ∈ ibo) :
    (((∃ id ∈ new_internal_ids orig modT, ∃ rm, dictGetRow modT id = .ok rm ∧
        rm.resource_uri ≠ "") ∨
      (∃ id ∈ in_both_internal_ids orig modT, ∃ ro rm,
        dictGetRow orig id = .ok ro ∧ dictGetRow modT id = .ok rm ∧
        (stripIsEmpty ro.resource_uri = true ∨ ro.resource_uri ≠ rm.resource_uri))) →
      ∃ e, confirm_changes orig modT pIdx rIdx ouris muris idc codes po ibo =
        .error e) ∧
    (∀ e, confirm_changes orig modT pIdx rIdx ouris muris idc codes po ibo =
        .error e →
      isResourceUriErr e = true →
      ((∃ id ∈ new_internal_ids orig modT, ∃ rm, dictGetRow modT id = .ok rm ∧
        rm.resource_uri ≠ "") ∨
       (∃ id ∈ in_both_internal_ids orig modT, ∃ ro rm,
        dictGetRow orig id = .ok ro ∧ dictGetRow modT id = .ok rm ∧
        (stripIsEmpty ro.resource_uri = true ∨ ro.resource_uri ≠ rm.resource_uri)))) := by
  constructor
  · intro hviol
    by_contra hne
    push_neg at hne
    have hok : ∃ r, confirm_changes orig modT pIdx rIdx ouris muris idc codes
        po ibo = .ok r := by
      cases hcc : confirm_changes orig modT pIdx rIdx ouris muris idc codes po ibo with
      | error e => exact absurd hcc (hne e)
      | ok r => exact ⟨r, rfl⟩
    rcases hok with ⟨r, hr⟩
    obtain ⟨-, ⟨b, hb⟩, -, -, -, ⟨g, hg⟩⟩ :=
      confirm_changes_ok_elim orig modT pIdx rIdx ouris muris idc codes po ibo r hr
    rcases hviol with ⟨id, hid, rm, hgm, hru⟩ | ⟨id, hid, ro, rm, hgo, hgm, hbad⟩
    · simp only [newStage] at hb
      rcases (mapE_ok_iff _ _).mp ⟨b, hb⟩ id ((mem_sortedIds id _).mpr hid) with ⟨y, hy⟩
      rw [newNodeStep_error_of_uri modT codes muris id rm hgm hru] at hy
      exact Except.noConfusion hy
    · rcases retainedStage_ok_mapE orig modT codes ouris muris ibo g hg with ⟨outs, houts⟩
      rcases (mapE_ok_iff _ _).mp ⟨outs, houts⟩ id (hibo id hid) with ⟨y, hy⟩
      rcases retainedStep_error_of_uri orig modT codes ouris muris id ro rm hgo hgm hbad
        with ⟨e, he, -⟩
      rw [he] at hy
      exact Except.noConfusion hy
  · intro e hcc hres
    rcases confirm_changes_error_elim orig modT pIdx rIdx ouris muris idc codes
        po ibo e hcc with h | h | h | h | h | h
    · simp only [removedStage] at h
      rcases mapE_error_mem _ _ _ h with ⟨id, -, hstep⟩
      rw [removedLineStep_error_shape orig id e hstep] at hres
      exact Bool.noConfusion hres
    · simp only [newStage] at h
      rcases mapE_error_mem _ _ _ h with ⟨id, hmem, hstep⟩
      rcases newNodeStep_error_resource modT codes muris id e hstep hres with
        ⟨rm, hgm, hru, rfl⟩
      exact Or.inl ⟨id, (mem_sortedIds id _).mp hmem, rm, hgm, hru⟩
    · rw [precursorStage_error_shape modT pIdx (dictKeys modT) idc e h] at hres
      exact Bool.noConfusion hres
    · rw [revocationStage_error_shape modT rIdx pIdx (dictKeys modT)
        (new_internal_ids orig modT) idc e h] at hres
      exact Bool.noConfusion hres
    · rw [candidateStage_error_shape orig modT po e h] at hres
      exact Bool.noConfusion hres
    · simp only [retainedStage] at h
      cases hmap : mapE (retainedStep orig modT codes ouris muris) ibo with
      | error e2 =>
        rw [hmap, except_bind_error] at h
        cases h
        rcases mapE_error_mem _ _ _ hmap with ⟨id, -, hstep⟩
        rcases retainedStep_resource_error orig modT codes ouris muris id e
            hstep hres with ⟨ro, rm, hgo, hgm, hbad⟩
        exact Or.inr ⟨id, mem_in_both_of_contains orig modT id
          (dictGetRow_ok_contains orig id ro hgo)
          (dictGetRow_ok_contains modT id rm hgm), ro, rm, hgo, hgm, hbad⟩
      | ok outs =>
        rw [hmap, except_bind_ok] at h
        exact Except.noConfusion h

/-- Witness for C3: a single retained node whose resource uri changed
between the snapshots makes the reconciliation fail. -/
theorem confirm_changes_resource_uri_rules_witness :
    kidneyRowOrig.resource_uri ≠ kidneyRowMod.resource_uri ∧
    (∃ e, confirm_changes origTreeKid modTreeKid [] [] [] [] [] [] []
      ["ONC000005"] = .error e) := by
  refine ⟨by decide, ?_⟩
  refine (confirm_changes_resource_uri_rules origTreeKid modTreeKid [] [] [] [] [] []
    [] ["ONC000005"] (by decide)).1 ?_
  exact Or.inr ⟨"ONC000005", by decide, kidneyRowOrig, kidneyRowMod, by decide,
    by decide, Or.inr (by decide)⟩

/-! ### C8: fail-fast uniqueness of the key fields -/
theorem pass1Step_error (s : Pass1State) (r : Row) (e : VErr)
    (hreq : rowRequiredErr r = none) (huniq : rowUniqueErr s r = some e) :
    pass1Step s r = .error e := by
  simp only [pass1Step, hreq, huniq]

theorem pass1Step_ok_sets (s s2 : Pass1State) (r : Row)
    (h : pass1Step s r = .ok s2) :
    s2.resource_uri_set = s.resource_uri_set ++ [r.resource_uri] ∧
    s2.internal_id_set = s.internal_id_set ++ [r.internal_id] ∧
    s2.oncotree_code_set = s.oncotree_code_set ++ [r.oncotree_code] := by
  simp only [pass1Step] at h
  cases hreq : rowRequiredErr r with
  | some e => simp only [hreq] at h; exact Except.noConfusion h
  | none =>
    simp only [hreq] at h
    cases huniq : rowUniqueErr s r with
    | some e => simp only [huniq] at h; exact Except.noConfusion h
    | none =>
      simp only [huniq] at h
      cases h
      exact ⟨rfl, rfl, rfl⟩

theorem foldE_pass1_sets (rows : List Row) (s0 s : Pass1State)
    (h : foldE pass1Step s0 rows = .ok s) :
    s.resource_uri_set = s0.resource_uri_set ++ rows.map (fun x => x.resource_uri) ∧
    s.internal_id_set = s0.internal_id_set ++ rows.map (fun x => x.internal_id) ∧
    s.oncotree_code_set = s0.oncotree_code_set ++ rows.map (fun x => x.oncotree_code) := by
  induction rows generalizing s0 with
  | nil =>
    simp only [foldE] at h
    cases h
    simp
  | cons r rows ih =>
    simp only [foldE] at h
    cases hstep : pass1Step s0 r with
    | error e => rw [hstep] at h; exact Except.noConfusion h
    | ok s1 =>
      rw [hstep] at h
      obtain ⟨a1, a2, a3⟩ := pass1Step_ok_sets s0 s1 r hstep
      obtain ⟨b1, b2, b3⟩ := ih s1 h
      refine ⟨?_, ?_, ?_⟩ <;>
        simp [b1, b2, b3, a1, a2, a3, List.append_assoc]

theorem rowUniqueErr_field_cases (t : Pass1State) (q : Row) (f v : String)
    (h : rowUniqueErr t q = some (VErr.duplicateField f v)) :
    (f = RESOURCE_URI ∧ q.resource_uri ≠ "") ∨
    (f = INTERNAL_ID ∧ q.internal_id ≠ "") ∨
    (f = ONCOTREE_CODE ∧ q.oncotree_code ≠ "") := by
  simp only [rowUniqueErr] at h
  split at h
  · rename_i hc
    rw [Option.some.injEq] at h
    cases h
    simp only [Bool.and_eq_true] at hc
    exact Or.inl ⟨rfl, by simpa using hc.1⟩
  · split at h
    · rename_i hc
      rw [Option.some.injEq] at h
      cases h
      simp only [Bool.and_eq_true] at hc
      exact Or.inr (Or.inl ⟨rfl, by simpa using hc.1⟩)
    · split at h
      · rename_i hc
        rw [Option.some.injEq] at h
        cases h
        simp only [Bool.and_eq_true] at hc
        exact Or.inr (Or.inr ⟨rfl, by simpa using hc.1⟩)
      · exact Option.noConfusion h

/-- C8: when the rows before `r` scan cleanly into state `s` and `r` passes
the required-field check but one of its key fields repeats a non-empty
value, the whole validation fails immediately with that duplicate error —
whatever rows follow and before the second pass runs.  The state's three
sets hold exactly the previous rows' values, and an empty value never
produces a duplicate error for its field. -/
theorem validate_csv_fail_fast_on_duplicate (pre post : List Row) (r : Row)
    (s : Pass1State) (e : VErr)
    (h1 : pass1 pre = .ok s)
    (h2 : rowRequiredErr r = none)
    (h3 : rowUniqueErr s r = some e) :
    validate_csv_file (pre ++ r :: post) = .error e ∧
    s.resource_uri_set = pre.map (fun x => x.resource_uri) ∧
    s.internal_id_set = pre.map (fun x => x.internal_id) ∧
    s.oncotree_code_set = pre.map (fun x => x.oncotree_code) ∧
    (∀ t q, q.resource_uri = "" →
      ∀ v, rowUniqueErr t q ≠ some (VErr.duplicateField RESOURCE_URI v)) ∧
    (∀ t q, q.internal_id = "" →
      ∀ v, rowUniqueErr t q ≠ some (VErr.duplicateField INTERNAL_ID v)) ∧
    (∀ t q, q.oncotree_code = "" →
      ∀ v, rowUniqueErr t q ≠ some (VErr.duplicateField ONCOTREE_CODE v)) := by
  have hpass1 : pass1 (pre ++ r :: post) = .error e := by
    show foldE pass1Step initPass1 (pre ++ r :: post) = .error e
    rw [foldE_append]
    rw [show foldE pass1Step initPass1 pre = .ok s from h1]
    show foldE pass1Step s (r :: post) = .error e
    simp only [foldE, pass1Step_error s r e h2 h3]
  obtain ⟨hs1, hs2, hs3⟩ := foldE_pass1_sets pre initPass1 s h1
  refine ⟨?_, by simpa using hs1, by simpa using hs2, by simpa using hs3, ?_, ?_, ?_⟩
  · simp only [validate_csv_file]
    rw [hpass1, except_bind_error]
  · intro t q hq v hcontra
    rcases rowUniqueErr_field_cases t q RESOURCE_URI v hcontra with
      ⟨-, hne⟩ | ⟨hf, -⟩ | ⟨hf, -⟩
    · exact hne hq
    · exact absurd hf (by decide)
    · exact absurd hf (by decide)
  · intro t q hq v hcontra
    rcases rowUniqueErr_field_cases t q INTERNAL_ID v hcontra with
      ⟨hf, -⟩ | ⟨-, hne⟩ | ⟨hf, -⟩
    · exact absurd hf (by decide)
    · exact hne hq
    · exact absurd hf (by decide)
  · intro t q hq v hcontra
    rcases rowUniqueErr_field_cases t q ONCOTREE_CODE v hcontra with
      ⟨hf, -⟩ | ⟨hf, -⟩ | ⟨-, hne⟩
    · exact absurd hf (by decide)
    · exact absurd hf (by decide)
    · exact hne hq

/-- Witness for C8: a third row repeating resource uri "http://x/2" aborts
validation with the duplicate error, even though a valid row follows it. -/
theorem validate_csv_fail_fast_on_duplicate_witness :
    pass1 [childRowDangling] = .ok pass1StateDup ∧
    rowUniqueErr pass1StateDup dupUriRow =
      some (VErr.duplicateField RESOURCE_URI "http://x/2") ∧
    validate_csv_file [childRowDangling, dupUriRow, tissueRowA] =
      .error (VErr.duplicateField RESOURCE_URI "http://x/2") := by
  refine ⟨by decide, by decide, ?_⟩
  exact (validate_csv_fail_fast_on_duplicate [childRowDangling] [tissueRowA]
    dupUriRow pass1StateDup (VErr.duplicateField RESOURCE_URI "http://x/2")
    (by decide) (by decide) (by decide)).1

/-! ### C9: the TISSUE root's parent fields and reduced required set -/
theorem except_isOk_exists {ε α : Type} (x : Except ε α) (h : x.isOk = true) :
    ∃ a, x = .ok a := by
  cases x with
  | ok a => exact ⟨a, rfl⟩
  | error e => simp [Except.isOk, Except.toBool] at h

theorem rowRequiredErr_none_iff (r : Row) :
    rowRequiredErr r = none ↔ ∀ f ∈ requiredFieldsFor r, getField r f ≠ "" := by
  simp only [rowRequiredErr, List.findSome?_eq_none_iff]
  constructor
  · intro h f hf hempty
    have h2 := h f hf
    rw [if_pos (by simp [hempty])] at h2
    exact Option.noConfusion h2
  · intro h f hf
    rw [if_neg (by simpa using h f hf)]

theorem pass2Step_tissue_error (s : Pass1State) (acc : Pass2Acc) (q : Row)
    (hcode : q.oncotree_code = TISSUE) (hpf : parentFieldsSet q = true) :
    pass2Step s acc q = .error (VErr.tissueParentFieldSet q.internal_id) := by
  simp only [pass2Step]
  have h1 : (q.oncotree_code != TISSUE) = false := by simp [hcode]
  rw [if_neg (by simp [h1]), if_pos (by simp [hcode]), if_pos hpf]

theorem pass2Step_ok_of_not_tissue_bad (s : Pass1State) (acc : Pass2Acc) (q : Row)
    (hq : ¬(q.oncotree_code = TISSUE ∧ parentFieldsSet q = true)) :
    ∃ acc2, pass2Step s acc q = .ok acc2 := by
  simp only [pass2Step]
  by_cases hguard : (q.oncotree_code != TISSUE &&
      parent_resource_uri_and_label_are_valid q.parent_resource_uri q.parent_label
        s.child_to_parent_resource_uris s.child_uri_to_child_label
        s.child_to_parent_labels) = true
  · rw [if_pos hguard]
    exact ⟨_, rfl⟩
  · rw [if_neg hguard]
    by_cases ht : (q.oncotree_code == TISSUE) = true
    · rw [if_pos ht]
      have hpf : parentFieldsSet q = false := by
        cases hpf : parentFieldsSet q with
        | false => rfl
        | true => exact absurd ⟨by simpa using ht, hpf⟩ hq
      rw [if_neg (by simp [hpf])]
      exact ⟨_, rfl⟩
    · rw [if_neg ht]
      exact ⟨_, rfl⟩

theorem not_tissue_bad_bool (q : Row)
    (h : ¬(q.oncotree_code = TISSUE ∧ parentFieldsSet q = true)) :
    (!(q.oncotree_code == TISSUE && parentFieldsSet q)) = true := by
  by_cases hA : (q.oncotree_code == TISSUE) = true
  · have hB : parentFieldsSet q = false := by
      cases hB : parentFieldsSet q with
      | false => rfl
      | true => exact absurd ⟨by simpa using hA, hB⟩ h
    simp [hA, hB]
  · simp [show (q.oncotree_code == TISSUE) = false from by simpa using hA]

theorem pass2Step_isOk (s : Pass1State) (acc : Pass2Acc) (q : Row) :
    (pass2Step s acc q).isOk = !(q.oncotree_code == TISSUE && parentFieldsSet q) := by
  by_cases hq : q.oncotree_code = TISSUE ∧ parentFieldsSet q = true
  · rw [pass2Step_tissue_error s acc q hq.1 hq.2]
    simp [Except.isOk, Except.toBool, hq.1, hq.2]
  · rcases pass2Step_ok_of_not_tissue_bad s acc q hq with ⟨acc2, hacc2⟩
    rw [hacc2, not_tissue_bad_bool q hq]
    rfl

/-- C9: part one — a TISSUE-coded row with any parent-related field set
aborts the second pass immediately with the fatal root-parent error, given
that the first pass over the whole file succeeded and no earlier row is a
bad root row; later rows and the accumulated error lists are never
consulted.  Part two — a TISSUE row is checked against the reduced
required-field list, which constrains exactly the seven root fields (color,
main type and the parent columns are free).  Part three — a TISSUE row with
all parent fields empty passes the root check of the second pass and adds
no parent violation. -/
theorem tissue_root_parent_rules (pre post : List Row) (r : Row) (s : Pass1State)
    (hcode : r.oncotree_code = TISSUE)
    (hpre : ∀ q ∈ pre, ¬(q.oncotree_code = TISSUE ∧ parentFieldsSet q = true)) :
    (parentFieldsSet r = true →
      pass1 (pre ++ r :: post) = .ok s →
      validate_csv_file (pre ++ r :: post) =
        .error (VErr.tissueParentFieldSet r.internal_id)) ∧
    requiredFieldsFor r = TISSUE_NODE_REQUIRED_FIELDS ∧
    (rowRequiredErr r = none ↔
      (r.resource_uri ≠ "" ∧ r.label ≠ "" ∧ r.scheme_uri ≠ "" ∧ r.status ≠ "" ∧
       r.internal_id ≠ "" ∧ r.preferred_label ≠ "")) ∧
    (parentFieldsSet r = false → ∀ t acc, ∃ acc2,
      pass2Step t acc r = .ok acc2 ∧
      acc2.parent_invalid_errors = acc.parent_invalid_errors) := by
  refine ⟨?_, ?_, ?_, ?_⟩
  · intro hpf hp1
    have hpass2 : pass2 s (pre ++ r :: post) =
        .error (VErr.tissueParentFieldSet r.internal_id) := by
      show foldE (pass2Step s) ⟨[], []⟩ (pre ++ r :: post) =
        .error (VErr.tissueParentFieldSet r.internal_id)
      rw [foldE_append]
      have hok : (foldE (pass2Step s) (⟨[], []⟩ : Pass2Acc) pre).isOk = true := by
        rw [foldE_isOk_all (pass2Step s)
          (fun q => !(q.oncotree_code == TISSUE && parentFieldsSet q))
          (fun acc q => pass2Step_isOk s acc q) ⟨[], []⟩ pre]
        rw [List.all_eq_true]
        intro q hqmem
        exact not_tissue_bad_bool q (hpre q hqmem)
      rcases except_isOk_exists _ hok with ⟨acc1, hacc1⟩
      rw [hacc1]
      show foldE (pass2Step s) acc1 (r :: post) = _
      simp only [foldE, pass2Step_tissue_error s acc1 r hcode hpf]
    simp only [validate_csv_file]
    rw [hp1, except_bind_ok, hpass2, except_bind_error]
  · simp [requiredFieldsFor, hcode]
  · rw [rowRequiredErr_none_iff,
      show requiredFieldsFor r = TISSUE_NODE_REQUIRED_FIELDS from by
        simp [requiredFieldsFor, hcode]]
    simp [TISSUE_NODE_REQUIRED_FIELDS, List.forall_mem_cons, getField,
      RESOURCE_URI, LABEL, SCHEME_URI, STATUS, INTERNAL_ID, COLOR, MAIN_TYPE,
      ONCOTREE_CODE, PRECURSORS, PREFERRED_LABEL, REVOCATIONS,
      PARENT_RESOURCE_URI, PARENT_LABEL, PARENT_ONCOTREE_CODE, TISSUE, hcode,
      and_assoc]
  · intro hpf t acc
    simp only [pass2Step]
    have h1 : (r.oncotree_code != TISSUE) = false := by simp [hcode]
    rw [if_neg (by simp [h1]), if_pos (by simp [hcode]), if_neg (by simp [hpf])]
    refine ⟨_, rfl, ?_⟩
    split <;> rfl

/-- Witness for C9: a root row carrying a parent resource uri is rejected
with the fatal root-parent error, and the good root row of the other
fixtures passes the reduced required-field check with empty color and
main-type fields. -/
theorem tissue_root_parent_rules_witness :
    tissueRowBad.oncotree_code = TISSUE ∧ parentFieldsSet tissueRowBad = true ∧
    validate_csv_file [tissueRowBad] =
      .error (VErr.tissueParentFieldSet "ONC000001") ∧
    rowRequiredErr tissueRowA = none ∧ tissueRowA.color = "" := by
  refine ⟨by decide, by decide, ?_, by decide, by decide⟩
  exact (tissue_root_parent_rules [] [] tissueRowBad pass1StateTissueBad
    (by decide) (by intro q hq; cases hq)).1 (by decide) (by decide)

/-! ### C5: identity-change candidates -/
theorem isEmpty_append {α : Type} (l m : List α) :
    (l ++ m).isEmpty = (l.isEmpty && m.isEmpty) := by
  cases l <;> simp [List.isEmpty]

theorem filter_isEmpty_ite {α : Type} (c : Prop) [Decidable c] (x : α)
    (p : α → Bool) :
    (List.filter p (if c then ([] : List α) else [x])).isEmpty =
      (decide c || !(p x)) := by
  split_ifs with h <;> cases hp : p x <;> simp [List.filter, hp, h, List.isEmpty]

theorem string_beq_decide (a b : String) : (a == b) = decide (a = b) := by
  cases h : decide (a = b) with
  | true =>
    simp only [decide_eq_true_eq] at h
    simp [h]
  | false =>
    simp only [decide_eq_false_iff_not] at h
    simp [beq_eq_false_iff_ne, h]

/-- The source's DeepDiff-based test (drop the internal-id entry from the
value diff, succeed when nothing remains) coincides with plain equality of
all shared non-id columns. -/
theorem candidate_diff_iff (o m : Row) :
    candidate_diff_is_empty o m = rows_equal_except_internal_id o m := by
  cases hpo : o.parent_oncotree_code <;> cases hpm : m.parent_oncotree_code <;>
    simp [candidate_diff_is_empty, deep_diff_values_changed,
      rows_equal_except_internal_id, hpo, hpm, isEmpty_append, filter_isEmpty_ite,
      List.filter_append, RESOURCE_URI, LABEL, SCHEME_URI,
      STATUS, INTERNAL_ID, COLOR, MAIN_TYPE, ONCOTREE_CODE, PRECURSORS,
      PREFERRED_LABEL, REVOCATIONS, PARENT_RESOURCE_URI, PARENT_LABEL,
      PARENT_ONCOTREE_CODE, Bool.and_assoc, string_beq_decide]

theorem candidatePairStep_value (orig modT : List (String × Row))
    (p : String × String) (h1 : dictContains orig p.1 = true)
    (h2 : dictContains modT p.2 = true) :
    candidatePairStep orig modT p = .ok (candidateLineFor orig modT p) := by
  rcases (dictGetRow_ok_iff _ _).mpr h1 with ⟨od, hod⟩
  rcases (dictGetRow_ok_iff _ _).mpr h2 with ⟨md, hmd⟩
  simp only [candidatePairStep, candidateLineFor, hod, hmd, except_bind_ok]
  rw [candidate_diff_iff]
  split <;> rfl

theorem mapE_all_ok {ε α β : Type} (f : α → Except ε β) (g : α → β) (l : List α)
    (h : ∀ x ∈ l, f x = .ok (g x)) : mapE f l = .ok (l.map g) := by
  induction l with
  | nil => rfl
  | cons x xs ih =>
    simp only [mapE, h x (List.mem_cons_self x xs), List.map]
    rw [ih (fun a ha => h a (List.mem_cons_of_mem x ha))]

theorem removed_subset_orig (orig modT : List (String × Row)) (id : String)
    (h : id ∈ removed_internal_ids orig modT) : dictContains orig id = true := by
  simp only [removed_internal_ids, List.mem_filter] at h
  exact (dictContains_iff_mem_keys orig id).mpr h.1

theorem new_subset_mod (orig modT : List (String × Row)) (id : String)
    (h : id ∈ new_internal_ids orig modT) : dictContains modT id = true := by
  simp only [new_internal_ids, List.mem_filter] at h
  exact (dictContains_iff_mem_keys modT id).mpr h.1

theorem candidateStage_value (orig modT : List (String × Row))
    (po : List (String × String))
    (hpo : ∀ p ∈ po, p.1 ∈ removed_internal_ids orig modT ∧
      p.2 ∈ new_internal_ids orig modT) :
    candidateStage orig modT po =
      .ok (po.filterMap (candidateLineFor orig modT)) := by
  simp only [candidateStage]
  rw [mapE_all_ok (candidatePairStep orig modT) (candidateLineFor orig modT) po
    (fun p hp => candidatePairStep_value orig modT p
      (removed_subset_orig orig modT p.1 (hpo p hp).1)
      (new_subset_mod orig modT p.2 (hpo p hp).2)), except_bind_ok]
  simp [List.filterMap_map]
  rfl

theorem confirm_changes_ok_intro (orig modT : List (String × Row))
    (pIdx rIdx : List (String × List String))
    (ouris muris idc codes : List (String × String))
    (po : List (String × String)) (ibo : List String)
    (a b c d f : List String) (g : List String × List String)
    (h1 : removedStage orig modT = .ok a)
    (h2 : newStage modT codes muris (new_internal_ids orig modT) = .ok b)
    (h3 : precursorStage modT pIdx (dictKeys modT) idc = .ok c)
    (h4 : revocationStage modT rIdx pIdx (dictKeys modT)
      (new_internal_ids orig modT) idc = .ok d)
    (h5 : candidateStage orig modT po = .ok f)
    (h6 : retainedStage orig modT codes ouris muris ibo = .ok g) :
    confirm_changes orig modT pIdx rIdx ouris muris idc codes po ibo =
      .ok ⟨a, b, c, d, f, g.1, g.2⟩ := by
  simp only [confirm_changes]
  rw [h1, except_bind_ok, h2, except_bind_ok, h3, except_bind_ok, h4,
    except_bind_ok, h5, except_bind_ok, h6, except_bind_ok]
  rfl

/-- C5: part one — the script's DeepDiff-based test emits a pair exactly
when the two rows agree on every shared column other than the internal id.
Part two — the candidate stage returns one line per agreeing pair of the
removed-by-new enumeration and cannot fail on it.  Part three — candidate
emission is informational: replacing the pair enumeration with any other
valid one (in particular one producing different candidates) never changes
whether the whole reconciliation succeeds. -/
theorem identity_change_candidates_rule (orig modT : List (String × Row))
    (pIdx rIdx : List (String × List String))
    (ouris muris idc codes : List (String × String))
    (po po2 : List (String × String)) (ibo : List String)
    (hpo : ∀ p ∈ po, p.1 ∈ removed_internal_ids orig modT ∧
      p.2 ∈ new_internal_ids orig modT)
    (hpo2 : ∀ p ∈ po2, p.1 ∈ removed_internal_ids orig modT ∧
      p.2 ∈ new_internal_ids orig modT) :
    (∀ o m, candidate_diff_is_empty o m = rows_equal_except_internal_id o m) ∧
    candidateStage orig modT po =
      .ok (po.filterMap (candidateLineFor orig modT)) ∧
    ((∃ r, confirm_changes orig modT pIdx rIdx ouris muris idc codes po ibo =
        .ok r) ↔
     (∃ r, confirm_changes orig modT pIdx rIdx ouris muris idc codes po2 ibo =
        .ok r)) := by
  refine ⟨candidate_diff_iff, candidateStage_value orig modT po hpo, ?_⟩
  constructor
  · rintro ⟨r, hr⟩
    obtain ⟨⟨a, h1⟩, ⟨b, h2⟩, ⟨c, h3⟩, ⟨d, h4⟩, -, ⟨g, h6⟩⟩ :=
      confirm_changes_ok_elim orig modT pIdx rIdx ouris muris idc codes po ibo r hr
    exact ⟨_, confirm_changes_ok_intro orig modT pIdx rIdx ouris muris idc codes
      po2 ibo a b c d _ g h1 h2 h3 h4 (candidateStage_value orig modT po2 hpo2) h6⟩
  · rintro ⟨r, hr⟩
    obtain ⟨⟨a, h1⟩, ⟨b, h2⟩, ⟨c, h3⟩, ⟨d, h4⟩, -, ⟨g, h6⟩⟩ :=
      confirm_changes_ok_elim orig modT pIdx rIdx ouris muris idc codes po2 ibo r hr
    exact ⟨_, confirm_changes_ok_intro orig modT pIdx rIdx ouris muris idc codes
      po ibo a b c d _ g h1 h2 h3 h4 (candidateStage_value orig modT po hpo) h6⟩

/-- Witness for C5: a removed and an added node that agree on every shared
column produce exactly one candidate line. -/
theorem identity_change_candidates_rule_witness :
    candidate_diff_is_empty removedRowX addedRowY = true ∧
    candidateStage origTreeX modTreeY [("ONC000020", "ONC000021")] =
      .ok ["ONC000020: Lymph (LYM) -> ONC000021: Lymph (LYM)"] := by
  refine ⟨by decide, ?_⟩
  have h := (identity_change_candidates_rule origTreeX modTreeY [] [] [] [] [] []
    [("ONC000020", "ONC000021")] [] [] (by decide) (by decide)).2.1
  rw [h]
  decide

/-! ### C6: the parent-change exemption -/
/-- C6 counterexample: the claim ties the parent-change exemption to the
TISSUE oncotree code, but the script tests the internal id against the
literal "ONC000001" (line 259).  Here the retained node with internal id
"ONC000001" has oncotree code "LUNG", its original parent resolves to
"PA2" while its modified parent is declared as "PB", and still the report
carries no parent-change entry: the claimed comparison never happened. -/
theorem parent_change_exemption_counterexample :
    n1Mod.oncotree_code ≠ TISSUE ∧
    resolvedOrigParentCodeC6 = .ok "PA2" ∧
    n1Mod.parent_oncotree_code = some "PB" ∧
    (match confirm_changes origT6 modT6 [] [] origUris6 modUris6 [] codesMap6 []
        ["ONC000001", "ONC000002", "ONC000003"] with
     | .ok r => r.parent_change_messages
     | .error _ => ["error"]) = [] := by
  refine ⟨by decide, by decide, by decide, by decide⟩

/-- C6 amended: the parent-change comparison is skipped exactly for the
retained internal id "ONC000001" (the conventional id of the TISSUE root);
the exemption tests the internal id, not the oncotree code.  Every other
retained id is compared: when both parent resolutions succeed, a
parent-change note appears exactly when the two resolved codes differ. -/
theorem parent_change_exemption_rule (orig modT : List (String × Row))
    (codes ouris muris : List (String × String)) (id : String) (ro rm : Row)
    (hgo : dictGetRow orig id = .ok ro) (hgm : dictGetRow modT id = .ok rm)
    (hstrip : stripIsEmpty ro.resource_uri = false)
    (heq : ro.resource_uri = rm.resource_uri) :
    (id = TISSUE_INTERNAL_ID →
      retainedStep orig modT codes ouris muris id =
        .ok ⟨codeMsgOf ro rm, none⟩) ∧
    (id ≠ TISSUE_INTERNAL_ID → ∀ mcode ocode,
      modifiedParentCode codes muris id rm = .ok mcode →
      originalParentCode codes ouris id ro = .ok ocode →
      retainedStep orig modT codes ouris muris id =
        .ok ⟨codeMsgOf ro rm,
          if ocode != mcode then some (parentChangeLine ro rm ocode mcode)
          else none⟩) := by
  constructor
  · intro hid
    simp only [retainedStep]
    rw [hgo, except_bind_ok, hgm, except_bind_ok, if_neg (by simp [hstrip]),
      if_neg (by simp [heq]), if_pos (by simp [hid])]
    rfl
  · intro hid mcode ocode hmc hoc
    simp only [retainedStep]
    rw [hgo, except_bind_ok, hgm, except_bind_ok, if_neg (by simp [hstrip]),
      if_neg (by simp [heq]), if_neg (by simp [hid]), hmc, except_bind_ok,
      hoc, except_bind_ok]
    rfl

/-- Witness for C6 amended: the "ONC000001" node of the fixture forest is
skipped although its parents differ, and the "ONC000002" node is compared
(equal resolved codes, so no note). -/
theorem parent_change_exemption_rule_witness :
    retainedStep origT6 modT6 codesMap6 origUris6 modUris6 "ONC000001" =
      .ok ⟨none, none⟩ ∧
    retainedStep origT6 modT6 codesMap6 origUris6 modUris6 "ONC000002" =
      .ok ⟨some (codeChangeLine p1Orig p1Mod), none⟩ := by
  constructor
  · have h := (parent_change_exemption_rule origT6 modT6 codesMap6 origUris6
      modUris6 "ONC000001" n1Orig n1Mod (by decide) (by decide) (by decide)
      (by decide)).1 rfl
    rw [h]
    decide
  · have h := (parent_change_exemption_rule origT6 modT6 codesMap6 origUris6
      modUris6 "ONC000002" p1Orig p1Mod (by decide) (by decide) (by decide)
      (by decide)).2 (by decide) "LUNG" "LUNG" (by decide) (by decide)
    rw [h]
    decide

/-! ### C7: determinism and ordering of the report -/
/-- C7 counterexample: the report is not rendered entirely in a fixed,
identifier-sorted order.  Two enumerations of the same retained-id set —
Python set iteration order is unspecified — produce different reports,
because the code-change list follows the enumeration order; and two
iteration orders of the same precursor value set produce different
precursor summaries, because within one (sorted) key the lines follow the
inner set loop's order.  Rerunning the reconciliation can therefore render
the aggregates differently. -/
theorem report_order_counterexample :
    List.Perm ["ONC000001", "ONC000002", "ONC000003"]
      ["ONC000003", "ONC000002", "ONC000001"] ∧
    confirm_changes origT6 modT6 [] [] origUris6 modUris6 [] codesMap6 []
      ["ONC000001", "ONC000002", "ONC000003"] ≠
    confirm_changes origT6 modT6 [] [] origUris6 modUris6 [] codesMap6 []
      ["ONC000003", "ONC000002", "ONC000001"] ∧
    List.Perm (pvoFwd "ONC000009") (pvoRev "ONC000009") ∧
    confirm_changes_vo origT6 modT6 pIdx7 [] origUris6 modUris6 [] codesMap6 []
      ["ONC000001", "ONC000002", "ONC000003"] pvoFwd vorNil ≠
    confirm_changes_vo origT6 modT6 pIdx7 [] origUris6 modUris6 [] codesMap6 []
      ["ONC000001", "ONC000002", "ONC000003"] pvoRev vorNil := by
  refine ⟨by decide, by decide, by decide, by decide⟩

theorem retainedStage_ok_intro (orig modT : List (String × Row))
    (codes ouris muris : List (String × String)) (ibo : List String)
    (outs : List RetainedOut)
    (h : mapE (retainedStep orig modT codes ouris muris) ibo = .ok outs) :
    retainedStage orig modT codes ouris muris ibo =
      .ok (outs.filterMap (fun o => o.codeMsg),
        outs.filterMap (fun o => o.parentMsg)) := by
  simp only [retainedStage]
  rw [h, except_bind_ok]
  rfl

/-- The fixed-order reconciliation is the order-parametrized one at the
representation's insertion orders. -/
theorem confirm_changes_eq_vo (orig modT : List (String × Row))
    (pIdx rIdx : List (String × List String))
    (ouris muris idc codes : List (String × String))
    (po : List (String × String)) (ibo : List String) :
    confirm_changes orig modT pIdx rIdx ouris muris idc codes po ibo =
    confirm_changes_vo orig modT pIdx rIdx ouris muris idc codes po ibo
      (multiDictGet pIdx) (multiDictGet rIdx) := rfl

theorem mapE_perm {ε α β : Type} (f : α → Except ε β) {l l2 : List α}
    (hp : List.Perm l l2) :
    ∀ out out2, mapE f l = .ok out → mapE f l2 = .ok out2 →
      List.Perm out out2 := by
  induction hp with
  | nil =>
    intro out out2 h h2
    simp only [mapE] at h h2
    cases h
    cases h2
    exact List.Perm.nil
  | cons x p ih =>
    rename_i t1 t2
    intro out out2 h h2
    simp only [mapE] at h h2
    cases hfx : f x with
    | error e =>
      rw [hfx] at h
      exact absurd h (by simp)
    | ok y =>
      rw [hfx] at h h2
      cases hr1 : mapE f t1 with
      | error e => rw [hr1] at h; exact absurd h (by simp)
      | ok ys =>
        cases hr2 : mapE f t2 with
        | error e => rw [hr2] at h2; exact absurd h2 (by simp)
        | ok zs =>
          rw [hr1] at h
          rw [hr2] at h2
          cases h
          cases h2
          exact List.Perm.cons y (ih ys zs hr1 hr2)
  | swap x y l =>
    intro out out2 h h2
    simp only [mapE] at h h2
    cases hfy : f y with
    | error e =>
      rw [hfy] at h
      exact absurd h (by simp)
    | ok b =>
      cases hfx : f x with
      | error e =>
        rw [hfx] at h2
        exact absurd h2 (by simp)
      | ok a =>
        rw [hfx, hfy] at h
        rw [hfx, hfy] at h2
        cases hfl : mapE f l with
        | error e =>
          rw [hfl] at h
          exact absurd h (by simp)
        | ok ws =>
          rw [hfl] at h h2
          cases h
          cases h2
          exact List.Perm.swap a b ws
  | trans p1 p2 ih1 ih2 =>
    rename_i l1 l2 l3
    intro out out2 h h2
    have hmid : ∃ ys, mapE f l2 = .ok ys := by
      rw [mapE_ok_iff]
      intro a ha
      exact (mapE_ok_iff f l1).mp ⟨out, h⟩ a (p1.mem_iff.mpr ha)
    rcases hmid with ⟨mid, hm⟩
    exact (ih1 out mid h hm).trans (ih2 mid out2 hm h2)

theorem mapE_flatten_perm {ε α β : Type} (f g : α → Except ε (List β)) :
    ∀ ks : List α,
      (∀ k ∈ ks, ∀ a b, f k = .ok a → g k = .ok b → List.Perm a b) →
      ∀ cs ds, mapE f ks = .ok cs → mapE g ks = .ok ds →
        List.Perm cs.flatten ds.flatten := by
  intro ks
  induction ks with
  | nil =>
    intro _ cs ds hc hd
    simp only [mapE] at hc hd
    cases hc
    cases hd
    exact List.Perm.refl _
  | cons k ks ih =>
    intro hfg cs ds hc hd
    simp only [mapE] at hc hd
    cases hfk : f k with
    | error e => rw [hfk] at hc; exact absurd hc (by simp)
    | ok a =>
      rw [hfk] at hc
      cases hgk : g k with
      | error e => rw [hgk] at hd; exact absurd hd (by simp)
      | ok b =>
        rw [hgk] at hd
        cases hrc : mapE f ks with
        | error e => rw [hrc] at hc; exact absurd hc (by simp)
        | ok cs2 =>
          rw [hrc] at hc
          cases hrd : mapE g ks with
          | error e => rw [hrd] at hd; exact absurd hd (by simp)
          | ok ds2 =>
            rw [hrd] at hd
            cases hc
            cases hd
            exact List.Perm.append
              (hfg k (List.mem_cons_self k ks) a b hfk hgk)
              (ih (fun x hx a2 b2 => hfg x (List.mem_cons_of_mem k hx) a2 b2)
                cs2 ds2 hrc hrd)

theorem precursorKeyStepO_perm (modT : List (String × Row))
    (modSet : List String) (idc : List (String × String))
    (vop vop2 : String → List String) (pid : String)
    (hperm : List.Perm (vop pid) (vop2 pid)) (a b : List String)
    (ha : precursorKeyStepO modT modSet idc vop pid = .ok a)
    (hb : precursorKeyStepO modT modSet idc vop2 pid = .ok b) :
    List.Perm a b := by
  simp only [precursorKeyStepO] at ha hb
  by_cases hlive : modSet.contains pid = true
  · rw [if_pos hlive] at ha
    exact Except.noConfusion ha
  · rw [if_neg (by simpa using hlive)] at ha hb
    exact mapE_perm _ hperm a b ha hb

theorem precursorKeyStepO_ok_transfer (modT : List (String × Row))
    (modSet : List String) (idc : List (String × String))
    (vop vop2 : String → List String) (pid : String)
    (hperm : List.Perm (vop pid) (vop2 pid))
    (h : ∃ a, precursorKeyStepO modT modSet idc vop pid = .ok a) :
    ∃ b, precursorKeyStepO modT modSet idc vop2 pid = .ok b := by
  rcases h with ⟨a, ha⟩
  simp only [precursorKeyStepO] at ha ⊢
  by_cases hlive : modSet.contains pid = true
  · rw [if_pos hlive] at ha
    exact Except.noConfusion ha
  · rw [if_neg (by simpa using hlive)] at ha ⊢
    rw [mapE_ok_iff]
    intro x hx
    exact (mapE_ok_iff _ (vop pid)).mp ⟨a, ha⟩ x (hperm.mem_iff.mpr hx)

theorem revocationKeyStepO_perm (modT : List (String × Row))
    (pIdx : List (String × List String)) (modSet newIds : List String)
    (idc : List (String × String)) (vor vor2 : String → List String)
    (rid : String) (hperm : List.Perm (vor rid) (vor2 rid)) (a b : List String)
    (ha : revocationKeyStepO modT pIdx modSet newIds idc vor rid = .ok a)
    (hb : revocationKeyStepO modT pIdx modSet newIds idc vor2 rid = .ok b) :
    List.Perm a b := by
  simp only [revocationKeyStepO] at ha hb
  by_cases hlive : modSet.contains rid = true
  · rw [if_pos hlive] at ha
    exact Except.noConfusion ha
  · rw [if_neg (by simpa using hlive)] at ha hb
    by_cases hprec : (dictKeys pIdx).contains rid = true
    · rw [if_pos hprec] at ha
      exact Except.noConfusion ha
    · rw [if_neg (by simpa using hprec)] at ha hb
      exact mapE_perm _ hperm a b ha hb

theorem revocationKeyStepO_ok_transfer (modT : List (String × Row))
    (pIdx : List (String × List String)) (modSet newIds : List String)
    (idc : List (String × String)) (vor vor2 : String → List String)
    (rid : String) (hperm : List.Perm (vor rid) (vor2 rid))
    (h : ∃ a, revocationKeyStepO modT pIdx modSet newIds idc vor rid = .ok a) :
    ∃ b, revocationKeyStepO modT pIdx modSet newIds idc vor2 rid = .ok b := by
  rcases h with ⟨a, ha⟩
  simp only [revocationKeyStepO] at ha ⊢
  by_cases hlive : modSet.contains rid = true
  · rw [if_pos hlive] at ha
    exact Except.noConfusion ha
  · rw [if_neg (by simpa using hlive)] at ha ⊢
    by_cases hprec : (dictKeys pIdx).contains rid = true
    · rw [if_pos hprec] at ha
      exact Except.noConfusion ha
    · rw [if_neg (by simpa using hprec)] at ha ⊢
      rw [mapE_ok_iff]
      intro x hx
      exact (mapE_ok_iff _ (vor rid)).mp ⟨a, ha⟩ x (hperm.mem_iff.mpr hx)

theorem precursorStageO_perm (modT : List (String × Row))
    (pIdx : List (String × List String)) (modSet : List String)
    (idc : List (String × String)) (vop vop2 : String → List String)
    (hv : ∀ k, List.Perm (vop k) (vop2 k)) (c d : List String)
    (hc : precursorStageO modT pIdx modSet idc vop = .ok c)
    (hd : precursorStageO modT pIdx modSet idc vop2 = .ok d) :
    List.Perm c d := by
  simp only [precursorStageO] at hc hd
  cases hmc : mapE (precursorKeyStepO modT modSet idc vop)
      (sortedIds (dictKeys pIdx)) with
  | error e => rw [hmc, except_bind_error] at hc; exact Except.noConfusion hc
  | ok cs =>
    rw [hmc, except_bind_ok] at hc
    cases hmd : mapE (precursorKeyStepO modT modSet idc vop2)
        (sortedIds (dictKeys pIdx)) with
    | error e => rw [hmd, except_bind_error] at hd; exact Except.noConfusion hd
    | ok ds =>
      rw [hmd, except_bind_ok] at hd
      cases hc
      cases hd
      exact mapE_flatten_perm _ _ (sortedIds (dictKeys pIdx))
        (fun k _ a b hfa hgb =>
          precursorKeyStepO_perm modT modSet idc vop vop2 k (hv k) a b hfa hgb)
        cs ds hmc hmd

theorem precursorStageO_ok_transfer (modT : List (String × Row))
    (pIdx : List (String × List String)) (modSet : List String)
    (idc : List (String × String)) (vop vop2 : String → List String)
    (hv : ∀ k, List.Perm (vop k) (vop2 k))
    (h : ∃ c, precursorStageO modT pIdx modSet idc vop = .ok c) :
    ∃ d, precursorStageO modT pIdx modSet idc vop2 = .ok d := by
  rcases h with ⟨c, hc⟩
  simp only [precursorStageO] at hc ⊢
  cases hmc : mapE (precursorKeyStepO modT modSet idc vop)
      (sortedIds (dictKeys pIdx)) with
  | error e => rw [hmc, except_bind_error] at hc; exact Except.noConfusion hc
  | ok cs =>
    have hex : ∃ ds, mapE (precursorKeyStepO modT modSet idc vop2)
        (sortedIds (dictKeys pIdx)) = .ok ds := by
      rw [mapE_ok_iff]
      intro k hk
      exact precursorKeyStepO_ok_transfer modT modSet idc vop vop2 k (hv k)
        ((mapE_ok_iff _ _).mp ⟨cs, hmc⟩ k hk)
    rcases hex with ⟨ds, hds⟩
    rw [hds, except_bind_ok]
    exact ⟨ds.flatten, rfl⟩

theorem revocationStageO_perm (modT : List (String × Row))
    (rIdx pIdx : List (String × List String)) (modSet newIds : List String)
    (idc : List (String × String)) (vor vor2 : String → List String)
    (hv : ∀ k, List.Perm (vor k) (vor2 k)) (c d : List String)
    (hc : revocationStageO modT rIdx pIdx modSet newIds idc vor = .ok c)
    (hd : revocationStageO modT rIdx pIdx modSet newIds idc vor2 = .ok d) :
    List.Perm c d := by
  simp only [revocationStageO] at hc hd
  cases hmc : mapE (revocationKeyStepO modT pIdx modSet newIds idc vor)
      (sortedIds (dictKeys rIdx)) with
  | error e => rw [hmc, except_bind_error] at hc; exact Except.noConfusion hc
  | ok cs =>
    rw [hmc, except_bind_ok] at hc
    cases hmd : mapE (revocationKeyStepO modT pIdx modSet newIds idc vor2)
        (sortedIds (dictKeys rIdx)) with
    | error e => rw [hmd, except_bind_error] at hd; exact Except.noConfusion hd
    | ok ds =>
      rw [hmd, except_bind_ok] at hd
      cases hc
      cases hd
      exact mapE_flatten_perm _ _ (sortedIds (dictKeys rIdx))
        (fun k _ a b hfa hgb =>
          revocationKeyStepO_perm modT pIdx modSet newIds idc vor vor2 k
            (hv k) a b hfa hgb)
        cs ds hmc hmd

theorem revocationStageO_ok_transfer (modT : List (String × Row))
    (rIdx pIdx : List (String × List String)) (modSet newIds : List String)
    (idc : List (String × String)) (vor vor2 : String → List String)
    (hv : ∀ k, List.Perm (vor k) (vor2 k))
    (h : ∃ c, revocationStageO modT rIdx pIdx modSet newIds idc vor = .ok c) :
    ∃ d, revocationStageO modT rIdx pIdx modSet newIds idc vor2 = .ok d := by
  rcases h with ⟨c, hc⟩
  simp only [revocationStageO] at hc ⊢
  cases hmc : mapE (revocationKeyStepO modT pIdx modSet newIds idc vor)
      (sortedIds (dictKeys rIdx)) with
  | error e => rw [hmc, except_bind_error] at hc; exact Except.noConfusion hc
  | ok cs =>
    have hex : ∃ ds, mapE (revocationKeyStepO modT pIdx modSet newIds idc vor2)
        (sortedIds (dictKeys rIdx)) = .ok ds := by
      rw [mapE_ok_iff]
      intro k hk
      exact revocationKeyStepO_ok_transfer modT pIdx modSet newIds idc vor vor2
        k (hv k) ((mapE_ok_iff _ _).mp ⟨cs, hmc⟩ k hk)
    rcases hex with ⟨ds, hds⟩
    rw [hds, except_bind_ok]
    exact ⟨ds.flatten, rfl⟩

theorem confirm_changes_vo_ok_elim (orig modT : List (String × Row))
    (pIdx rIdx : List (String × List String))
    (ouris muris idc codes : List (String × String))
    (po : List (String × String)) (ibo : List String)
    (vop vor : String → List String) (r : Report)
    (h : confirm_changes_vo orig modT pIdx rIdx ouris muris idc codes po ibo
      vop vor = .ok r) :
    (∃ a, removedStage orig modT = .ok a) ∧
    (∃ b, newStage modT codes muris (new_internal_ids orig modT) = .ok b) ∧
    (∃ c, precursorStageO modT pIdx (dictKeys modT) idc vop = .ok c) ∧
    (∃ d, revocationStageO modT rIdx pIdx (dictKeys modT)
      (new_internal_ids orig modT) idc vor = .ok d) ∧
    (∃ f, candidateStage orig modT po = .ok f) ∧
    (∃ g, retainedStage orig modT codes ouris muris ibo = .ok g) := by
  simp only [confirm_changes_vo] at h
  cases h1 : removedStage orig modT with
  | error e1 => rw [h1, except_bind_error] at h; exact Except.noConfusion h
  | ok a =>
    rw [h1, except_bind_ok] at h
    cases h2 : newStage modT codes muris (new_internal_ids orig modT) with
    | error e2 => rw [h2, except_bind_error] at h; exact Except.noConfusion h
    | ok b =>
      rw [h2, except_bind_ok] at h
      cases h3 : precursorStageO modT pIdx (dictKeys modT) idc vop with
      | error e3 => rw [h3, except_bind_error] at h; exact Except.noConfusion h
      | ok c =>
        rw [h3, except_bind_ok] at h
        cases h4 : revocationStageO modT rIdx pIdx (dictKeys modT)
            (new_internal_ids orig modT) idc vor with
        | error e4 => rw [h4, except_bind_error] at h; exact Except.noConfusion h
        | ok d =>
          rw [h4, except_bind_ok] at h
          cases h5 : candidateStage orig modT po with
          | error e5 => rw [h5, except_bind_error] at h; exact Except.noConfusion h
          | ok f =>
            rw [h5, except_bind_ok] at h
            cases h6 : retainedStage orig modT codes ouris muris ibo with
            | error e6 => rw [h6, except_bind_error] at h; exact Except.noConfusion h
            | ok g =>
              exact ⟨⟨a, rfl⟩, ⟨b, rfl⟩, ⟨c, rfl⟩, ⟨d, rfl⟩, ⟨f, rfl⟩, ⟨g, rfl⟩⟩

theorem confirm_changes_vo_ok_intro (orig modT : List (String × Row))
    (pIdx rIdx : List (String × List String))
    (ouris muris idc codes : List (String × String))
    (po : List (String × String)) (ibo : List String)
    (vop vor : String → List String)
    (a b c d f : List String) (g : List String × List String)
    (h1 : removedStage orig modT = .ok a)
    (h2 : newStage modT codes muris (new_internal_ids orig modT) = .ok b)
    (h3 : precursorStageO modT pIdx (dictKeys modT) idc vop = .ok c)
    (h4 : revocationStageO modT rIdx pIdx (dictKeys modT)
      (new_internal_ids orig modT) idc vor = .ok d)
    (h5 : candidateStage orig modT po = .ok f)
    (h6 : retainedStage orig modT codes ouris muris ibo = .ok g) :
    confirm_changes_vo orig modT pIdx rIdx ouris muris idc codes po ibo
      vop vor = .ok ⟨a, b, c, d, f, g.1, g.2⟩ := by
  simp only [confirm_changes_vo]
  rw [h1, except_bind_ok, h2, except_bind_ok, h3, except_bind_ok, h4,
    except_bind_ok, h5, except_bind_ok, h6, except_bind_ok]
  rfl

theorem confirm_changes_vo_components (orig modT : List (String × Row))
    (pIdx rIdx : List (String × List String))
    (ouris muris idc codes : List (String × String))
    (po : List (String × String)) (ibo : List String)
    (vop vor : String → List String) (r : Report)
    (h : confirm_changes_vo orig modT pIdx rIdx ouris muris idc codes po ibo
      vop vor = .ok r) :
    removedStage orig modT = .ok r.removed_lines ∧
    newStage modT codes muris (new_internal_ids orig modT) = .ok r.new_lines ∧
    precursorStageO modT pIdx (dictKeys modT) idc vop = .ok r.precursor_lines ∧
    revocationStageO modT rIdx pIdx (dictKeys modT) (new_internal_ids orig modT)
      idc vor = .ok r.revocation_lines := by
  simp only [confirm_changes_vo] at h
  cases h1 : removedStage orig modT with
  | error e1 => rw [h1, except_bind_error] at h; exact Except.noConfusion h
  | ok a =>
    rw [h1, except_bind_ok] at h
    cases h2 : newStage modT codes muris (new_internal_ids orig modT) with
    | error e2 => rw [h2, except_bind_error] at h; exact Except.noConfusion h
    | ok b =>
      rw [h2, except_bind_ok] at h
      cases h3 : precursorStageO modT pIdx (dictKeys modT) idc vop with
      | error e3 => rw [h3, except_bind_error] at h; exact Except.noConfusion h
      | ok c =>
        rw [h3, except_bind_ok] at h
        cases h4 : revocationStageO modT rIdx pIdx (dictKeys modT)
            (new_internal_ids orig modT) idc vor with
        | error e4 => rw [h4, except_bind_error] at h; exact Except.noConfusion h
        | ok d =>
          rw [h4, except_bind_ok] at h
          cases h5 : candidateStage orig modT po with
          | error e5 => rw [h5, except_bind_error] at h; exact Except.noConfusion h
          | ok f =>
            rw [h5, except_bind_ok] at h
            cases h6 : retainedStage orig modT codes ouris muris ibo with
            | error e6 => rw [h6, except_bind_error] at h; exact Except.noConfusion h
            | ok g =>
              rw [h6, except_bind_ok] at h
              cases h
              exact ⟨rfl, rfl, rfl, rfl⟩

/-- C7 amended: over the order-parametrized reconciliation — two runs on
the same snapshots may differ in the enumeration of every unordered Python
set the script iterates: the removed-by-new pair set (`po`), the
retained-id set (`ibo`), and each precursor and revocation value set
(`vop`, `vor`) — the removed, added and retained id sets are computed by
pure set algebra, so the runs agree on them, and whether the reconciliation
succeeds is independent of all four enumeration choices.  The removed-node
and new-node aggregates are identical across runs and follow the sorted id
order, and the precursor and revocation summaries walk their keys in
sorted order; but within one key those summaries follow the run's
value-set iteration order, so across runs they agree only up to
reordering.  The identity-change, code-change and parent-change lists
follow the pair and retained-id enumeration orders — the counterexample
shows two orders producing different reports. -/
theorem report_determinism_rule (orig modT : List (String × Row))
    (pIdx rIdx : List (String × List String))
    (ouris muris idc codes : List (String × String))
    (po po2 : List (String × String)) (ibo ibo2 : List String)
    (vop vop2 vor vor2 : String → List String)
    (hperm : List.Perm ibo ibo2)
    (hpo : ∀ p ∈ po, p.1 ∈ removed_internal_ids orig modT ∧
      p.2 ∈ new_internal_ids orig modT)
    (hpo2 : ∀ p ∈ po2, p.1 ∈ removed_internal_ids orig modT ∧
      p.2 ∈ new_internal_ids orig modT)
    (hvop : ∀ k, List.Perm (vop k) (multiDictGet pIdx k))
    (hvop2 : ∀ k, List.Perm (vop2 k) (multiDictGet pIdx k))
    (hvor : ∀ k, List.Perm (vor k) (multiDictGet rIdx k))
    (hvor2 : ∀ k, List.Perm (vor2 k) (multiDictGet rIdx k)) :
    ((∃ r, confirm_changes_vo orig modT pIdx rIdx ouris muris idc codes po ibo
        vop vor = .ok r) ↔
     (∃ r, confirm_changes_vo orig modT pIdx rIdx ouris muris idc codes po2 ibo2
        vop2 vor2 = .ok r)) ∧
    (∀ r r2,
      confirm_changes_vo orig modT pIdx rIdx ouris muris idc codes po ibo
        vop vor = .ok r →
      confirm_changes_vo orig modT pIdx rIdx ouris muris idc codes po2 ibo2
        vop2 vor2 = .ok r2 →
      r.removed_lines = r2.removed_lines ∧ r.new_lines = r2.new_lines ∧
      List.Perm r.precursor_lines r2.precursor_lines ∧
      List.Perm r.revocation_lines r2.revocation_lines) ∧
    (sortedIds (removed_internal_ids orig modT)).Pairwise
      (fun a b => strLe a b = true) ∧
    (sortedIds (new_internal_ids orig modT)).Pairwise
      (fun a b => strLe a b = true) ∧
    (sortedIds (dictKeys pIdx)).Pairwise (fun a b => strLe a b = true) ∧
    (sortedIds (dictKeys rIdx)).Pairwise (fun a b => strLe a b = true) := by
  have hvp : ∀ k, List.Perm (vop k) (vop2 k) :=
    fun k => (hvop k).trans (hvop2 k).symm
  have hvr : ∀ k, List.Perm (vor k) (vor2 k) :=
    fun k => (hvor k).trans (hvor2 k).symm
  have transfer : ∀ (poA poB : List (String × String)) (iboA iboB : List String)
      (vopA vopB vorA vorB : String → List String),
      List.Perm iboA iboB →
      (∀ p ∈ poB, p.1 ∈ removed_internal_ids orig modT ∧
        p.2 ∈ new_internal_ids orig modT) →
      (∀ k, List.Perm (vopA k) (vopB k)) →
      (∀ k, List.Perm (vorA k) (vorB k)) →
      (∃ r, confirm_changes_vo orig modT pIdx rIdx ouris muris idc codes poA
        iboA vopA vorA = .ok r) →
      (∃ r, confirm_changes_vo orig modT pIdx rIdx ouris muris idc codes poB
        iboB vopB vorB = .ok r) := by
    rintro poA poB iboA iboB vopA vopB vorA vorB hpm hpoB hvA hvB ⟨r, hr⟩
    obtain ⟨⟨a, h1⟩, ⟨b, h2⟩, hcc, hdd, -, ⟨g, h6⟩⟩ :=
      confirm_changes_vo_ok_elim orig modT pIdx rIdx ouris muris idc codes poA
        iboA vopA vorA r hr
    obtain ⟨c2, h3⟩ := precursorStageO_ok_transfer modT pIdx (dictKeys modT)
      idc vopA vopB hvA hcc
    obtain ⟨d2, h4⟩ := revocationStageO_ok_transfer modT rIdx pIdx
      (dictKeys modT) (new_internal_ids orig modT) idc vorA vorB hvB hdd
    rcases retainedStage_ok_mapE orig modT codes ouris muris iboA g h6 with
      ⟨outs, houts⟩
    have hsteps : ∀ id ∈ iboB, ∃ y,
        retainedStep orig modT codes ouris muris id = .ok y := by
      intro id hid
      exact (mapE_ok_iff _ _).mp ⟨outs, houts⟩ id (hpm.mem_iff.mpr hid)
    rcases (mapE_ok_iff (retainedStep orig modT codes ouris muris) iboB).mpr
      hsteps with ⟨outsB, houtsB⟩
    exact ⟨_, confirm_changes_vo_ok_intro orig modT pIdx rIdx ouris muris idc
      codes poB iboB vopB vorB a b c2 d2 _ _ h1 h2 h3 h4
      (candidateStage_value orig modT poB hpoB)
      (retainedStage_ok_intro orig modT codes ouris muris iboB outsB houtsB)⟩
  refine ⟨⟨transfer po po2 ibo ibo2 vop vop2 vor vor2 hperm hpo2 hvp hvr,
    transfer po2 po ibo2 ibo vop2 vop vor2 vor hperm.symm hpo
      (fun k => (hvp k).symm) (fun k => (hvr k).symm)⟩, ?_,
    pairwise_sortedIds _, pairwise_sortedIds _, pairwise_sortedIds _,
    pairwise_sortedIds _⟩
  intro r r2 hr hr2
  obtain ⟨c1, c2, c3, c4⟩ := confirm_changes_vo_components orig modT pIdx rIdx
    ouris muris idc codes po ibo vop vor r hr
  obtain ⟨d1, d2, d3, d4⟩ := confirm_changes_vo_components orig modT pIdx rIdx
    ouris muris idc codes po2 ibo2 vop2 vor2 r2 hr2
  rw [c1] at d1
  rw [c2] at d2
  refine ⟨?_, ?_, ?_, ?_⟩
  · injection d1
  · injection d2
  · exact precursorStageO_perm modT pIdx (dictKeys modT) idc vop vop2 hvp
      r.precursor_lines r2.precursor_lines c3 d3
  · exact revocationStageO_perm modT rIdx pIdx (dictKeys modT)
      (new_internal_ids orig modT) idc vor vor2 hvr
      r.revocation_lines r2.revocation_lines c4 d4

/-- Witness for C7 amended: applied to the fixture forest, two enumeration
orders of its retained ids, and two iteration orders of the `pIdx7`
precursor value sets. -/
theorem report_determinism_rule_witness :
    List.Perm ["ONC000001", "ONC000002", "ONC000003"]
      ["ONC000002", "ONC000001", "ONC000003"] ∧
    ((∃ r, confirm_changes_vo origT6 modT6 pIdx7 [] origUris6 modUris6 []
        codesMap6 [] ["ONC000001", "ONC000002", "ONC000003"] pvoFwd vorNil =
        .ok r) ↔
     (∃ r, confirm_changes_vo origT6 modT6 pIdx7 [] origUris6 modUris6 []
        codesMap6 [] ["ONC000002", "ONC000001", "ONC000003"] pvoRev vorNil =
        .ok r)) :=
  ⟨by decide,
   (report_determinism_rule origT6 modT6 pIdx7 [] origUris6 modUris6 []
     codesMap6 [] [] ["ONC000001", "ONC000002", "ONC000003"]
     ["ONC000002", "ONC000001", "ONC000003"] pvoFwd pvoRev vorNil vorNil
     (by decide)
     (by intro p hp; cases hp) (by intro p hp; cases hp)
     (fun k => List.Perm.refl (pvoFwd k))
     (fun k => List.reverse_perm (multiDictGet pIdx7 k))
     (fun k => List.Perm.refl (vorNil k))
     (fun k => List.Perm.refl (vorNil k))).1⟩

end Oncotree
